import Mathlib

/-!
# A shallow embedding of the `nesmesis` 6502 CPU core

This file embeds the CPU core of the `nesmesis` NES emulator
(`src/cpu/mod.rs`, `src/cpu/reg.rs`, `src/cart/nrom.rs`) in Lean and
proves or refutes the claims of the specification against it.

Modelling conventions:
* Machine integers (`u8`, `u16`) are `Nat` with explicit `% 256` / `% 65536`
  where the Rust code wraps (`wrapping_add`, `as u8`, `as u16`);
  `i8` / `i16` reinterpretation is explicit two's complement over `Int`.
* The bus (`MMU` trait: `read`, `write`, `cycle`) is a store `Nat → Nat`
  plus a trace of bus events, so that cycle/read/write ordering is
  observable.  `cycle` on the modelled bus does not change the store,
  like the `TestMemory` bus of the repository's tests.
* Fallible Rust code is `Option`-valued: the monad `M` below returns
  `none` when the Rust code would panic (checked `u16`/`i16` overflow or
  out-of-bounds indexing in debug builds); the state (and hence the bus
  trace emitted so far) is kept alongside.
* `src/cpu/ops.rs` (the opcode decode table, `impl From<u8> for Operation`)
  is not among the provided sources, so decoding is a parameter
  `decode : Nat → Option Operation`; `none` models an opcode byte the
  table does not map to an executable operation.  The `Operation` and
  `AddressingMode` shapes are exactly the ones consumed by the dispatch
  `match` in `CPU::execute`.
-/

set_option maxRecDepth 20000

namespace Nesmesis

/-- A bus event, as a mock `MMU` implementation would record it:
one `cycle()` tick, one `read(a) → v`, or one `write(a, v)`. -/
inductive Ev where
  | cycle : Ev
  | rd : Nat → Nat → Ev
  | wr : Nat → Nat → Ev
deriving DecidableEq

/-- `true` for the data events (`read`/`write`), `false` for `cycle`. -/
def Ev.isAccess : Ev → Bool
  | .cycle => false
  | _ => true

/-- `true` exactly for the `cycle` event. -/
def Ev.isCycle : Ev → Bool
  | .cycle => true
  | _ => false

/-- Number of `cycle()` ticks in a trace. -/
def countCycles (t : List Ev) : Nat := (t.filter Ev.isCycle).length

/-- `reg.rs`: the `Register` enum. -/
inductive Register where
  | A | X | Y | P | SP
deriving DecidableEq

/-- `reg.rs`: the `Flag` enum. -/
inductive Flag where
  | Overflow | Negative | Zero | Carry | Decimal | Interrupt
deriving DecidableEq

/-- `reg.rs`: the bit of `ProcessorStatus` each flag names. -/
def flagMask : Flag → Nat
  | .Negative => 0x80
  | .Overflow => 0x40
  | .Decimal => 0x08
  | .Interrupt => 0x04
  | .Zero => 0x02
  | .Carry => 0x01

/-- `reg.rs`: the register file (`a`, `x`, `y`, `p`, `sp`, `pc`). -/
structure Registers where
  a : Nat
  x : Nat
  y : Nat
  p : Nat
  sp : Nat
  pc : Nat
deriving DecidableEq

/-- `Registers::new`: everything zeroed (`ProcessorStatus::empty()`). -/
def Registers.new : Registers := ⟨0, 0, 0, 0, 0, 0⟩

/-- `Registers::read`. -/
def Registers.read (rg : Registers) : Register → Nat
  | .A => rg.a
  | .P => rg.p
  | .X => rg.x
  | .Y => rg.y
  | .SP => rg.sp

/-- `Registers::update_zn`: `Z = (v == 0)`, `N = (v & 0x80) != 0`
(`ProcessorStatus` insert/remove on bits `0x02` and `0x80`). -/
def Registers.update_zn (rg : Registers) (v : Nat) : Registers :=
  let p1 := if v = 0 then rg.p ||| 0x02 else rg.p &&& 0xFD
  let p2 := if v &&& 0x80 = 0x80 then p1 ||| 0x80 else p1 &&& 0x7F
  { rg with p := p2 }

/-- `Registers::write`: A/X/Y update Z/N then store; P is masked
`(v & 0xCF) | 0x20` (the `from_bits(..).unwrap()` always succeeds since
all 8 bits are named); SP stores raw. -/
def Registers.write (rg : Registers) : Register → Nat → Registers
  | .A, v => let rg := rg.update_zn v; { rg with a := v }
  | .X, v => let rg := rg.update_zn v; { rg with x := v }
  | .Y, v => let rg := rg.update_zn v; { rg with y := v }
  | .P, v => { rg with p := (v &&& 0xCF) ||| 0x20 }
  | .SP, v => { rg with sp := v }

/-- `Registers::check_flag` (`bitflags` `contains`). -/
def Registers.check_flag (rg : Registers) (f : Flag) : Bool :=
  rg.p &&& flagMask f == flagMask f

/-- `Registers::update_flag` (`bitflags` `insert` / `remove`). -/
def Registers.update_flag (rg : Registers) (f : Flag) (v : Bool) : Registers :=
  if v then { rg with p := rg.p ||| flagMask f }
  else { rg with p := rg.p &&& (0xFF ^^^ flagMask f) }

/-- `Registers::update_cv`: `C = r > 0xFF`;
`V = (~(x ^ y) & (x ^ r) & 0x80) != 0`, with the `u8` complement of
`x ^ y` written as `^^^ 0xFF` and `r` the 16-bit sum. -/
def Registers.update_cv (rg : Registers) (x y r : Nat) : Registers :=
  let p1 := if 0xFF < r then rg.p ||| 0x01 else rg.p &&& 0xFE
  let p2 := if ((x ^^^ y) ^^^ 0xFF) &&& (x ^^^ r) &&& 0x80 ≠ 0 then p1 ||| 0x40
            else p1 &&& 0xBF
  { rg with p := p2 }

/-- The CPU state: register file, the bus (store plus recorded event
trace) and the NMI latch.  `CPU { reg, bus, nmi }` from `cpu/mod.rs`. -/
structure Cpu where
  reg : Registers
  mem : Nat → Nat
  trace : List Ev
  nmi : Bool

/-- One bus `cycle()`: recorded on the trace; the store is untouched. -/
def Cpu.busCycle (s : Cpu) : Cpu := { s with trace := s.trace ++ [Ev.cycle] }

/-- Bus `read(a)`: returns the stored byte and records the event. -/
def Cpu.busRead (s : Cpu) (a : Nat) : Nat × Cpu :=
  (s.mem a, { s with trace := s.trace ++ [Ev.rd a (s.mem a)] })

/-- Bus `write(a, v)`: updates the store and records the event. -/
def Cpu.busWrite (s : Cpu) (a v : Nat) : Cpu :=
  { s with mem := fun x => if x = a then v else s.mem x,
           trace := s.trace ++ [Ev.wr a v] }

/-- The CPU-step monad: state passing over `Cpu`, with `none` modelling a
Rust panic; the state at the moment of the panic is retained so the bus
trace emitted before the panic stays observable. -/
def M (α : Type) : Type := Cpu → Option α × Cpu

/-- Monadic return. -/
def M.pure {α : Type} (a : α) : M α := fun s => (some a, s)

/-- Monadic sequencing; a panic short-circuits. -/
def M.bind {α β : Type} (m : M α) (f : α → M β) : M β := fun s =>
  match m s with
  | (some a, s') => f a s'
  | (none, s') => (none, s')

instance : Monad M where
  pure := M.pure
  bind := M.bind

/-- A Rust panic (debug-mode arithmetic overflow / bad index). -/
def M.fail {α : Type} : M α := fun s => (none, s)

/-- `self.bus.cycle()` standing alone. -/
def tick : M Unit := fun s => (some (), s.busCycle)

/-- `CPU::read`: `bus.cycle(); bus.read(a)`. -/
def rd (a : Nat) : M Nat := fun s =>
  let s1 := s.busCycle
  let p := s1.busRead a
  (some p.1, p.2)

/-- `CPU::write`: `bus.cycle(); bus.write(a, v)`. -/
def wr (a v : Nat) : M Unit := fun s =>
  let s1 := s.busCycle
  (some (), s1.busWrite a v)

/-- `self.reg.read(r)`. -/
def getReg (r : Register) : M Nat := fun s => (some (s.reg.read r), s)

/-- `self.reg.write(r, v)`. -/
def setReg (r : Register) (v : Nat) : M Unit := fun s =>
  (some (), { s with reg := s.reg.write r v })

/-- `self.reg.read_pc()`. -/
def getPC : M Nat := fun s => (some s.reg.pc, s)

/-- `self.reg.write_pc(v)`. -/
def setPC (v : Nat) : M Unit := fun s =>
  (some (), { s with reg := { s.reg with pc := v } })

/-- `self.reg.check_flag(f)`. -/
def getFlag (f : Flag) : M Bool := fun s => (some (s.reg.check_flag f), s)

/-- `self.reg.update_flag(f, v)`. -/
def setFlag (f : Flag) (v : Bool) : M Unit := fun s =>
  (some (), { s with reg := s.reg.update_flag f v })

/-- `self.reg.update_zn(v)`. -/
def updZN (v : Nat) : M Unit := fun s =>
  (some (), { s with reg := s.reg.update_zn v })

/-- `self.reg.update_cv(x, y, r)`. -/
def updCV (x y r : Nat) : M Unit := fun s =>
  (some (), { s with reg := s.reg.update_cv x y r })

/-- The `nmi` latch read by `brk`. -/
def getNmi : M Bool := fun s => (some s.nmi, s)

/-- `CPU::read16`: low byte at `a`, high byte at `a + 1`; the `a + 1` is
plain (non-wrapping) `u16` addition, so `a = 0xFFFF` overflows after the
first read. -/
def read16 (a : Nat) : M Nat := do
  let lo ← rd a
  let _ ← ((if 0x10000 ≤ a + 1 then M.fail else M.pure ()) : M Unit)
  let hi ← rd (a + 1)
  M.pure (lo ||| (hi <<< 8))

/-- `CPU::push`: write at `0x100 + SP`, then `SP -= 1` wrapping. -/
def push (v : Nat) : M Unit := do
  let sp ← getReg .SP
  let _ ← wr (sp + 0x100) v
  setReg .SP ((sp + 256 - 1) % 256)

/-- `CPU::push16`: high byte first, then low byte. -/
def push16 (v : Nat) : M Unit := do
  let _ ← push ((v >>> 8) % 256)
  push (v &&& 0xFF)

/-- `CPU::pop`: `SP += 1` wrapping, then read at `0x100 + SP`. -/
def pop : M Nat := do
  let sp0 ← getReg .SP
  let sp := (sp0 + 1) % 256
  let _ ← setReg .SP sp
  rd (sp + 0x100)

/-- `CPU::pop16`: low byte first, then high byte. -/
def pop16 : M Nat := do
  let lo ← pop
  let hi ← pop
  M.pure (lo ||| (hi <<< 8))

/-- `CPU::cross`: page-cross test `((a +w b) & 0xFF00) != (a & 0xFF00)`
with wrapping 16-bit addition. -/
def cross (a b : Nat) : Bool :=
  ((a + b) % 65536) &&& 0xFF00 != a &&& 0xFF00

/-- `CPU::imm`: return PC, advance it by 1 (wrapping). -/
def imm : M Nat := do
  let p ← getPC
  let _ ← setPC ((p + 1) % 65536)
  M.pure p

/-- `CPU::imm16`: return PC, advance it by 2 (wrapping). -/
def imm16 : M Nat := do
  let p ← getPC
  let _ ← setPC ((p + 2) % 65536)
  M.pure p

/-- `CPU::abs`. -/
def absm : M Nat := do
  let i ← imm16
  read16 i

/-- `CPU::abi` (AbsoluteX / AbsoluteY): extra tick when `extra` is set
and `cross(a, reg)` holds, result `a +w reg`. -/
def abi (extra : Bool) (r : Register) : M Nat := do
  let a ← absm
  let reg ← getReg r
  let _ ← ((if extra && cross a reg then tick else M.pure ()) : M Unit)
  M.pure ((a + reg) % 65536)

/-- `CPU::zp`. -/
def zp : M Nat := do
  let i ← imm
  rd i

/-- `CPU::zpi` (ZeroPageX / ZeroPageY): dummy tick, result wrapped to the
zero page. -/
def zpi (r : Register) : M Nat := do
  let a ← zp
  let _ ← tick
  let v ← getReg r
  M.pure ((a + v) &&& 0xFF)

/-- `CPU::izx`: pointer at `(imm + X) mod 256`, with the same-page wrap
when the pointer is `0xFF`. -/
def izx : M Nat := do
  let i ← imm
  let z ← rd i
  let x ← getReg .X
  let res := (z + x) % 256
  let _ ← tick
  ((if res = 0xFF then do
      let lo ← rd 0xFF
      let hi ← rd 0x00
      M.pure (lo ||| (hi <<< 8))
    else read16 res) : M Nat)

/-- `CPU::izy`: pointer at `imm` (same wrap rule), then add Y; the extra
tick is gated on `cross(addr -w y, y)` where `addr` is the pointer's
16-bit contents before Y is added. -/
def izy (extra : Bool) : M Nat := do
  let i ← imm
  let zb ← rd i
  let y ← getReg .Y
  let _ ← tick
  let addr ← ((if zb = 0xFF then do
      let lo ← rd 0xFF
      let hi ← rd 0x00
      M.pure (lo ||| (hi <<< 8))
    else read16 zb) : M Nat)
  let _ ← ((if extra && cross ((addr + 65536 - y) % 65536) y then tick
            else M.pure ()) : M Unit)
  M.pure ((addr + y) % 65536)

/-- `CPU::ind`: 16-bit pointer; when its low byte is `0xFF` the high byte
of the target is read from `addr - 0xFF` (start of the same page). -/
def ind : M Nat := do
  let i ← imm16
  let addr ← read16 i
  ((if addr &&& 0xFF = 0xFF then do
      let lo ← rd addr
      let hi ← rd (addr - 0xFF)
      M.pure (lo ||| (hi <<< 8))
    else read16 addr) : M Nat)

/-- `ops.rs` `AddressingMode`, as consumed by `CPU::resolve_addr`. -/
inductive AddressingMode where
  | Immediate
  | Absolute
  | AbsoluteX : Bool → AddressingMode
  | AbsoluteY : Bool → AddressingMode
  | ZeroPage
  | ZeroPageX
  | ZeroPageY
  | Indirect
  | IndirectX
  | IndirectY : Bool → AddressingMode
deriving DecidableEq

/-- `CPU::resolve_addr`. -/
def resolve_addr : AddressingMode → M Nat
  | .Immediate => imm
  | .Absolute => absm
  | .AbsoluteX e => abi e .X
  | .AbsoluteY e => abi e .Y
  | .ZeroPage => zp
  | .ZeroPageX => zpi .X
  | .ZeroPageY => zpi .Y
  | .Indirect => ind
  | .IndirectX => izx
  | .IndirectY e => izy e

/-- `CPU::load`. -/
def load (r : Register) (m : AddressingMode) : M Unit := do
  let addr ← resolve_addr m
  let value ← rd addr
  setReg r value

/-- `CPU::store`. -/
def store (r : Register) (m : AddressingMode) : M Unit := do
  let addr ← resolve_addr m
  let value ← getReg r
  wr addr value

/-- `CPU::transfer`. -/
def transfer (rfrom rto : Register) : M Unit := do
  let s ← getReg rfrom
  setReg rto s

/-- `CPU::add` (ADC): 16-bit `a + b + c`, C/V from `update_cv`, low byte
into A. -/
def add (m : AddressingMode) : M Unit := do
  let addr ← resolve_addr m
  let a ← getReg .A
  let b ← rd addr
  let cf ← getFlag .Carry
  let c := if cf then 1 else 0
  let result := a + b + c
  let _ ← updCV a b result
  setReg .A (result % 256)

/-- `CPU::dec_m`. -/
def dec_m (m : AddressingMode) : M Unit := do
  let addr ← resolve_addr m
  let v ← rd addr
  let value := (v + 256 - 1) % 256
  let _ ← tick
  let _ ← updZN value
  wr addr value

/-- `CPU::dec_r`. -/
def dec_r (r : Register) : M Unit := do
  let v0 ← getReg r
  let v := (v0 + 256 - 1) % 256
  let _ ← setReg r v
  tick

/-- `CPU::inc_m`. -/
def inc_m (m : AddressingMode) : M Unit := do
  let addr ← resolve_addr m
  let v ← rd addr
  let value := (v + 1) % 256
  let _ ← tick
  let _ ← updZN value
  wr addr value

/-- `CPU::inc_r`. -/
def inc_r (r : Register) : M Unit := do
  let v0 ← getReg r
  let v := (v0 + 1) % 256
  let _ ← setReg r v
  tick

/-- `CPU::sub` (SBC): ADC on `b ^ 0xFF`. -/
def sub (m : AddressingMode) : M Unit := do
  let addr ← resolve_addr m
  let a ← getReg .A
  let b0 ← rd addr
  let b := b0 ^^^ 0xFF
  let cf ← getFlag .Carry
  let c := if cf then 1 else 0
  let result := a + b + c
  let _ ← updCV a b result
  setReg .A (result % 256)

/-- `CPU::and`. -/
def andOp (m : AddressingMode) : M Unit := do
  let addr ← resolve_addr m
  let value ← rd addr
  let a ← getReg .A
  setReg .A (a &&& value)

/-- `CPU::asl_a`. -/
def asl_a : M Unit := do
  let value ← getReg .A
  let _ ← setFlag .Carry (value &&& 0x80 == 0x80)
  let _ ← setReg .A ((value <<< 1) % 256)
  tick

/-- `CPU::asl` (memory RMW). -/
def asl (m : AddressingMode) : M Unit := do
  let addr ← resolve_addr m
  let value ← rd addr
  let _ ← setFlag .Carry (value &&& 0x80 == 0x80)
  let _ ← tick
  let _ ← updZN ((value <<< 1) % 256)
  wr addr ((value <<< 1) % 256)

/-- `CPU::bits` (BIT). -/
def bits (m : AddressingMode) : M Unit := do
  let addr ← resolve_addr m
  let value ← rd addr
  let a ← getReg .A
  let b := a &&& value == 0
  let _ ← setFlag .Zero b
  let _ ← setFlag .Overflow (value &&& 0x40 == 0x40)
  setFlag .Negative (value &&& 0x80 == 0x80)

/-- `CPU::xor` (EOR). -/
def xorOp (m : AddressingMode) : M Unit := do
  let addr ← resolve_addr m
  let value ← rd addr
  let a ← getReg .A
  setReg .A (a ^^^ value)

/-- `CPU::lsr_a`. -/
def lsr_a : M Unit := do
  let value ← getReg .A
  let _ ← setFlag .Carry (value &&& 0x01 == 0x01)
  let _ ← setReg .A (value >>> 1)
  tick

/-- `CPU::lsr` (memory RMW). -/
def lsr (m : AddressingMode) : M Unit := do
  let addr ← resolve_addr m
  let value ← rd addr
  let _ ← setFlag .Carry (value &&& 0x01 == 0x01)
  let _ ← tick
  let _ ← updZN (value >>> 1)
  wr addr (value >>> 1)

/-- `CPU::or` (ORA). -/
def orOp (m : AddressingMode) : M Unit := do
  let addr ← resolve_addr m
  let value ← rd addr
  let a ← getReg .A
  setReg .A (a ||| value)

/-- `CPU::flag` (CLC/SEC/...): update the flag, one tick. -/
def flag (f : Flag) (v : Bool) : M Unit := do
  let _ ← setFlag f v
  tick

/-- `CPU::compare` (CMP/CPX/CPY); N comes from bit 7 of the `i16`
difference, modelled as two's complement over `Int`. -/
def compare (r : Register) (m : AddressingMode) : M Unit := do
  let reg ← getReg r
  let addr ← resolve_addr m
  let value ← rd addr
  let _ ← setFlag .Carry (decide (value ≤ reg))
  let _ ← setFlag .Zero (reg == value)
  setFlag .Negative ((((reg : Int) - (value : Int)) % 65536).toNat &&& 0x80 == 0x80)

/-- `CPU::jsr`. -/
def jsr : M Unit := do
  let pc ← getPC
  let t := (pc + 1) % 65536
  let _ ← tick
  let _ ← push16 t
  let addr ← imm16
  let value ← read16 addr
  setPC value

/-- `CPU::jump` (JMP). -/
def jump (m : AddressingMode) : M Unit := do
  let addr ← resolve_addr m
  setPC addr

/-- `CPU::stack` (PHA/PHP/PLA/PLP): one pre-tick on push (P pushed with
bit 4 set), two pre-ticks on pull. -/
def stackOp (r : Register) (pushIt : Bool) : M Unit :=
  if pushIt then do
    let _ ← tick
    let value ← ((match r with
      | .P => do
          let v ← getReg .P
          M.pure (v ||| 0b00010000)
      | r => getReg r) : M Nat)
    push value
  else do
    let _ ← tick
    let _ ← tick
    let value ← pop
    setReg r value

/-- `CPU::rti`. -/
def rti : M Unit := do
  let _ ← stackOp .P false
  let addr ← pop16
  setPC addr

/-- `CPU::rts`. -/
def rts : M Unit := do
  let _ ← tick
  let _ ← tick
  let a0 ← pop16
  let addr := (a0 + 1) % 65536
  let _ ← setPC addr
  tick

/-- `CPU::brk`: push `PC + 1` and `P | 0x10`, set I, then load PC from
the NMI vector when the latch is set, else the IRQ vector. -/
def brk : M Unit := do
  let pc ← getPC
  let addr := (pc + 1) % 65536
  let _ ← push16 addr
  let p ← getReg .P
  let flags := p ||| 0b00010000
  let _ ← push flags
  let _ ← setFlag .Interrupt true
  let nmi ← getNmi
  let val ← ((if nmi then read16 0xFFFA else read16 0xFFFE) : M Nat)
  setPC val

/-- `CPU::branch`: fetch the offset byte; when the flag matches, a tick,
a second tick gated on `cross(pc, value)` with the raw (unsigned) byte,
then `pc as i16 + value as i8` assigned to PC (checked `i16` addition,
two's complement over `Int`). -/
def branch (cond : Flag) (when' : Bool) : M Unit := do
  let addr ← imm
  let value ← rd addr
  let fl ← getFlag cond
  ((if fl = when' then do
      let _ ← tick
      let pc ← getPC
      let _ ← ((if cross pc value then tick else M.pure ()) : M Unit)
      let pcI : Int := if pc < 0x8000 then (pc : Int) else (pc : Int) - 65536
      let vI : Int := if value < 0x80 then (value : Int) else (value : Int) - 256
      let res := pcI + vI
      ((if res < -32768 ∨ 32767 < res then M.fail
        else setPC ((res % 65536).toNat)) : M Unit)
    else M.pure ()) : M Unit)

/-- `CPU::nop`: with an addressing mode, resolve and read (for the
cycles); always one final tick. -/
def nop (m : Option AddressingMode) : M Unit := do
  let _ ← ((match m with
    | some m => do
        let addr ← resolve_addr m
        let _ ← rd addr
        M.pure ()
    | none => M.pure ()) : M Unit)
  tick

/-- `CPU::rol_a`. -/
def rol_a : M Unit := do
  let cf ← getFlag .Carry
  let c := if cf then 1 else 0
  let value ← getReg .A
  let _ ← setFlag .Carry (value &&& 0x80 == 0x80)
  let _ ← setReg .A (((value <<< 1) % 256) ||| c)
  tick

/-- `CPU::rol` (memory RMW). -/
def rol (m : AddressingMode) : M Unit := do
  let cf ← getFlag .Carry
  let c := if cf then 1 else 0
  let addr ← resolve_addr m
  let value ← rd addr
  let _ ← setFlag .Carry (value &&& 0x80 == 0x80)
  let _ ← tick
  let _ ← updZN (((value <<< 1) % 256) ||| c)
  wr addr (((value <<< 1) % 256) ||| c)

/-- `CPU::ror_a`. -/
def ror_a : M Unit := do
  let cf ← getFlag .Carry
  let c := if cf then 0x80 else 0
  let value ← getReg .A
  let _ ← setFlag .Carry (value &&& 0x01 == 0x01)
  let _ ← setReg .A (c ||| (value >>> 1))
  tick

/-- `CPU::ror` (memory RMW). -/
def ror (m : AddressingMode) : M Unit := do
  let cf ← getFlag .Carry
  let c := if cf then 0x80 else 0
  let addr ← resolve_addr m
  let value ← rd addr
  let _ ← setFlag .Carry (value &&& 0x01 == 0x01)
  let _ ← tick
  let _ ← updZN (c ||| (value >>> 1))
  wr addr (c ||| (value >>> 1))

/-- `CPU::lax`. -/
def lax (m : AddressingMode) : M Unit := do
  let addr ← resolve_addr m
  let value ← rd addr
  let _ ← setReg .A value
  setReg .X value

/-- `CPU::sax`. -/
def sax (m : AddressingMode) : M Unit := do
  let addr ← resolve_addr m
  let a ← getReg .A
  let x ← getReg .X
  wr addr (a &&& x)

/-- `CPU::dcp`. -/
def dcp (m : AddressingMode) : M Unit := do
  let addr ← resolve_addr m
  let v ← rd addr
  let value := (v + 256 - 1) % 256
  let _ ← tick
  let reg ← getReg .A
  let _ ← setFlag .Carry (decide (value ≤ reg))
  let _ ← setFlag .Zero (reg == value)
  let _ ← setFlag .Negative
    ((((reg : Int) - (value : Int)) % 65536).toNat &&& 0x80 == 0x80)
  wr addr value

/-- `CPU::isb`. -/
def isb (m : AddressingMode) : M Unit := do
  let addr ← resolve_addr m
  let v ← rd addr
  let value := (v + 1) % 256
  let _ ← tick
  let a ← getReg .A
  let b := value ^^^ 0xFF
  let cf ← getFlag .Carry
  let c := if cf then 1 else 0
  let result := a + b + c
  let _ ← updCV a b result
  let _ ← setReg .A (result % 256)
  wr addr value

/-- `CPU::slo`. -/
def slo (m : AddressingMode) : M Unit := do
  let addr ← resolve_addr m
  let value ← rd addr
  let _ ← tick
  let _ ← setFlag .Carry (value &&& 0x80 == 0x80)
  let a ← getReg .A
  let _ ← updZN ((value <<< 1) % 256)
  let _ ← setReg .A (a ||| ((value <<< 1) % 256))
  wr addr ((value <<< 1) % 256)

/-- `CPU::rla`. -/
def rla (m : AddressingMode) : M Unit := do
  let addr ← resolve_addr m
  let value ← rd addr
  let _ ← tick
  let cf ← getFlag .Carry
  let c := if cf then 1 else 0
  let _ ← setFlag .Carry (value &&& 0x80 == 0x80)
  let a ← getReg .A
  let result := ((value <<< 1) % 256) ||| c
  let _ ← updZN result
  let _ ← setReg .A (a &&& result)
  wr addr result

/-- `CPU::sre`. -/
def sre (m : AddressingMode) : M Unit := do
  let addr ← resolve_addr m
  let value ← rd addr
  let _ ← tick
  let _ ← setFlag .Carry (value &&& 0x01 == 0x01)
  let a ← getReg .A
  let result := value >>> 1
  let _ ← updZN result
  let _ ← setReg .A (a ^^^ result)
  wr addr result

/-- `CPU::rra`. -/
def rra (m : AddressingMode) : M Unit := do
  let addr ← resolve_addr m
  let value ← rd addr
  let _ ← tick
  let cf ← getFlag .Carry
  let c := if cf then 0x80 else 0
  let _ ← setFlag .Carry (value &&& 0x01 == 0x01)
  let x := c ||| (value >>> 1)
  let _ ← updZN x
  let a ← getReg .A
  let cf2 ← getFlag .Carry
  let c2 := if cf2 then 1 else 0
  let result := a + x + c2
  let _ ← updCV a x result
  let _ ← setReg .A (result % 256)
  wr addr x

/-- `CPU::aac` (ANC). -/
def aac (m : AddressingMode) : M Unit := do
  let addr ← resolve_addr m
  let value ← rd addr
  let a ← getReg .A
  let _ ← setReg .A (a &&& value)
  let b ← getFlag .Negative
  setFlag .Carry b

/-- `CPU::asr` (ALR). -/
def asr (m : AddressingMode) : M Unit := do
  let addr ← resolve_addr m
  let value ← rd addr
  let reg ← getReg .A
  let _ ← setReg .A (reg &&& value)
  let res ← getReg .A
  let _ ← setFlag .Carry (res &&& 0x01 == 0x01)
  setReg .A (res >>> 1)

/-- `CPU::arr`. -/
def arr (m : AddressingMode) : M Unit := do
  let addr ← resolve_addr m
  let value ← rd addr
  let cf ← getFlag .Carry
  let a ← getReg .A
  let res := if cf then ((a &&& value) >>> 1) ||| 0x80 else (a &&& value) >>> 1
  let _ ← setReg .A res
  let reg ← getReg .A
  let _ ← setFlag .Carry (reg &&& 0x40 == 0x40)
  let cf2 ← getFlag .Carry
  let x := if cf2 then 1 else 0
  setFlag .Overflow (decide (x ^^^ ((reg >>> 5) &&& 0x01) ≠ 0))

/-- `CPU::atx` (LXA): A written twice, exactly as in the source. -/
def atx (m : AddressingMode) : M Unit := do
  let addr ← resolve_addr m
  let value ← rd addr
  let _ ← setReg .A value
  let _ ← setReg .X value
  setReg .A value

/-- `CPU::axs` (SBX). -/
def axs (m : AddressingMode) : M Unit := do
  let addr ← resolve_addr m
  let value ← rd addr
  let a ← getReg .A
  let x ← getReg .X
  let _ ← setFlag .Carry (decide (value ≤ a &&& x))
  setReg .X (((a &&& x) + 256 - value) % 256)

/-- `CPU::sa` (SHY/SHX/SHA/TAS). -/
def sa (r : Register) (m : AddressingMode) : M Unit := do
  let addr ← resolve_addr m
  let hi := (addr >>> 8) % 256
  let lo := addr &&& 0xFF
  let v ← getReg r
  let val := v &&& ((hi + 1) % 256)
  let ad := (val <<< 8) ||| lo
  wr ad val

/-- `ops.rs` `Operation`, shaped exactly as the dispatch `match` of
`CPU::execute` consumes it.  `Inc`/`Dec` with both components absent fall
through to the `_` (bad instruction) arm, as in the source. -/
inductive Operation where
  | Load : Register → AddressingMode → Operation
  | Store : Register → AddressingMode → Operation
  | Transfer : Register → Register → Operation
  | Add : AddressingMode → Operation
  | Inc : Option Register → Option AddressingMode → Operation
  | Dec : Option Register → Option AddressingMode → Operation
  | Sub : AddressingMode → Operation
  | And : AddressingMode → Operation
  | Asl : Option AddressingMode → Operation
  | Bits : AddressingMode → Operation
  | Xor : AddressingMode → Operation
  | Lsr : Option AddressingMode → Operation
  | Or : AddressingMode → Operation
  | Rol : Option AddressingMode → Operation
  | Ror : Option AddressingMode → Operation
  | Branch : Flag → Bool → Operation
  | Jump : Option AddressingMode → Operation
  | Ret : Bool → Operation
  | Flag : Flag → Bool → Operation
  | Compare : Register → AddressingMode → Operation
  | Stack : Register → Bool → Operation
  | Break : Operation
  | Nop : Option AddressingMode → Operation
  | Lax : AddressingMode → Operation
  | Sax : AddressingMode → Operation
  | Dcp : AddressingMode → Operation
  | Isb : AddressingMode → Operation
  | Slo : AddressingMode → Operation
  | Rla : AddressingMode → Operation
  | Sre : AddressingMode → Operation
  | Rra : AddressingMode → Operation
  | Aac : AddressingMode → Operation
  | Asr : AddressingMode → Operation
  | Arr : AddressingMode → Operation
  | Atx : AddressingMode → Operation
  | Axs : AddressingMode → Operation
  | Sa : Register → AddressingMode → Operation
deriving DecidableEq

/-- An uppercase hex digit. -/
def hexDigit (n : Nat) : Char :=
  if n < 10 then Char.ofNat (48 + n) else Char.ofNat (55 + n)

/-- Rust's `format!("{:02X}", p)` for `p < 65536`: uppercase hex,
zero-padded to a minimum width of two. -/
def hex2 (p : Nat) : String :=
  if p < 16 then String.mk ['0', hexDigit p]
  else if p < 256 then String.mk [hexDigit (p / 16), hexDigit (p % 16)]
  else if p < 4096 then
    String.mk [hexDigit (p / 256), hexDigit (p / 16 % 16), hexDigit (p % 16)]
  else
    String.mk [hexDigit (p / 4096 % 16), hexDigit (p / 256 % 16),
               hexDigit (p / 16 % 16), hexDigit (p % 16)]

/-- The `Err(format!("Bad Instruction {:02X}", p))` message; `p` is the
value `CPU::execute` interpolates (the PC the opcode was fetched from). -/
def badInstr (p : Nat) : String := "Bad Instruction " ++ hex2 p

/-- The dispatch `match` of `CPU::execute`: each decoded operation runs
its handler and yields `Ok(())`; `Inc(None, None)` / `Dec(None, None)`
fall into the `_` arm. -/
def dispatch (p : Nat) : Operation → M (Except String Unit)
  | .Load r m => do let _ ← load r m; M.pure (Except.ok ())
  | .Store r m => do let _ ← store r m; M.pure (Except.ok ())
  | .Transfer r1 r2 => do let _ ← transfer r1 r2; M.pure (Except.ok ())
  | .Add m => do let _ ← add m; M.pure (Except.ok ())
  | .Inc (some r) _ => do let _ ← inc_r r; M.pure (Except.ok ())
  | .Inc _ (some m) => do let _ ← inc_m m; M.pure (Except.ok ())
  | .Dec (some r) _ => do let _ ← dec_r r; M.pure (Except.ok ())
  | .Dec _ (some m) => do let _ ← dec_m m; M.pure (Except.ok ())
  | .Sub m => do let _ ← sub m; M.pure (Except.ok ())
  | .And m => do let _ ← andOp m; M.pure (Except.ok ())
  | .Asl none => do let _ ← asl_a; M.pure (Except.ok ())
  | .Asl (some m) => do let _ ← asl m; M.pure (Except.ok ())
  | .Bits m => do let _ ← bits m; M.pure (Except.ok ())
  | .Xor m => do let _ ← xorOp m; M.pure (Except.ok ())
  | .Lsr none => do let _ ← lsr_a; M.pure (Except.ok ())
  | .Lsr (some m) => do let _ ← lsr m; M.pure (Except.ok ())
  | .Or m => do let _ ← orOp m; M.pure (Except.ok ())
  | .Rol none => do let _ ← rol_a; M.pure (Except.ok ())
  | .Rol (some m) => do let _ ← rol m; M.pure (Except.ok ())
  | .Ror none => do let _ ← ror_a; M.pure (Except.ok ())
  | .Ror (some m) => do let _ ← ror m; M.pure (Except.ok ())
  | .Branch f b => do let _ ← branch f b; M.pure (Except.ok ())
  | .Jump none => do let _ ← jsr; M.pure (Except.ok ())
  | .Jump (some m) => do let _ ← jump m; M.pure (Except.ok ())
  | .Ret true => do let _ ← rts; M.pure (Except.ok ())
  | .Ret false => do let _ ← rti; M.pure (Except.ok ())
  | .Flag f b => do let _ ← flag f b; M.pure (Except.ok ())
  | .Compare r m => do let _ ← compare r m; M.pure (Except.ok ())
  | .Stack r b => do let _ ← stackOp r b; M.pure (Except.ok ())
  | .Break => do let _ ← brk; M.pure (Except.ok ())
  | .Nop m => do let _ ← nop m; M.pure (Except.ok ())
  | .Lax m => do let _ ← lax m; M.pure (Except.ok ())
  | .Sax m => do let _ ← sax m; M.pure (Except.ok ())
  | .Dcp m => do let _ ← dcp m; M.pure (Except.ok ())
  | .Isb m => do let _ ← isb m; M.pure (Except.ok ())
  | .Slo m => do let _ ← slo m; M.pure (Except.ok ())
  | .Rla m => do let _ ← rla m; M.pure (Except.ok ())
  | .Sre m => do let _ ← sre m; M.pure (Except.ok ())
  | .Rra m => do let _ ← rra m; M.pure (Except.ok ())
  | .Aac m => do let _ ← aac m; M.pure (Except.ok ())
  | .Asr m => do let _ ← asr m; M.pure (Except.ok ())
  | .Arr m => do let _ ← arr m; M.pure (Except.ok ())
  | .Atx m => do let _ ← atx m; M.pure (Except.ok ())
  | .Axs m => do let _ ← axs m; M.pure (Except.ok ())
  | .Sa r m => do let _ ← sa r m; M.pure (Except.ok ())
  | .Inc none none => M.pure (Except.error (badInstr p))
  | .Dec none none => M.pure (Except.error (badInstr p))

/-- `CPU::execute`: fetch the opcode at PC (advancing PC), decode it via
the (external) table, dispatch; an unmapped byte yields
`Err("Bad Instruction {:02X}")` with the fetch address `p`
interpolated. -/
def execute (decode : Nat → Option Operation) : M (Except String Unit) := do
  let p ← imm
  let b ← rd p
  ((match decode b with
    | some op => dispatch p op
    | none => M.pure (Except.error (badInstr p))) : M (Except String Unit))

/-- `CPU::init`: load PC from the reset vector, `SP = 0xFD`,
`P = 0x24`. -/
def initStep : M Unit := do
  let reset ← read16 0xFFFC
  let _ ← setPC reset
  let _ ← setReg .SP 0xFD
  setReg .P 0x24

/-- `n` successive `execute()` calls (the driver keeps stepping and
ignores the per-step `Result`, like the repository's test harness). -/
def steps (decode : Nat → Option Operation) : Nat → M Unit
  | 0 => M.pure ()
  | n + 1 => do
    let _ ← execute decode
    steps decode n

/-- `CPU::new` over a bus with backing store `mem` and an empty trace. -/
def mkCpu (mem : Nat → Nat) : Cpu :=
  { reg := Registers.new, mem := mem, trace := [], nmi := false }

/-- A full run: `CPU::new`, `init()`, then `n` `execute()` steps. -/
def runCpu (decode : Nat → Option Operation) (mem : Nat → Nat) (n : Nat) :
    Option Unit × Cpu :=
  (do let _ ← initStep; steps decode n) (mkCpu mem)

/-- `cart/nrom.rs`: the NROM mapper state. -/
structure NROM where
  prg_rom : List Nat
  chr_rom : List Nat
  prg_ram : List Nat
  prg_num : Nat
deriving DecidableEq

/-- `NROM::new` over an iNES image (a byte list): header bytes 4/5/8
give the PRG (×16384), CHR (×8192) and PRG-RAM (×8192, 0 meaning 1) page
counts; the body starts at offset 16, PRG-ROM then CHR-ROM.  `none`
models the debug-build panics: header indexing past the end, `u16`
arithmetic overflow on the sizes, or slicing past the end of `d`. -/
def NROM.new? (d : List Nat) : Option NROM :=
  if d.length < 9 then none
  else
    let prg_num := d.getD 4 0
    let prg_size := prg_num * 16384
    let chr_size := d.getD 5 0 * 8192
    let ram_size := if d.getD 8 0 = 0 then 8192 else d.getD 8 0 * 8192
    if 0x10000 ≤ prg_size ∨ 0x10000 ≤ chr_size ∨ 0x10000 ≤ ram_size then none
    else if 0x10000 ≤ 16 + prg_size ∨ 0x10000 ≤ 16 + prg_size + chr_size then none
    else if d.length < 16 + prg_size + chr_size then none
    else some { prg_rom := (d.drop 16).take prg_size,
                chr_rom := (d.drop (16 + prg_size)).take chr_size,
                prg_ram := List.replicate ram_size 0,
                prg_num := prg_num }

/-- `NROM::cpu_read`; `none` models the panic on an out-of-bounds
index. -/
def NROM.cpuRead (n : NROM) (a : Nat) : Option Nat :=
  if 0x6000 ≤ a ∧ a ≤ 0x7FFF then n.prg_ram[a % 0x6000]?
  else if 0x8000 ≤ a ∧ a ≤ 0xBFFF then n.prg_rom[a % 0x8000]?
  else if 0xC000 ≤ a ∧ a ≤ 0xFFFF then
    (if n.prg_num = 2 then n.prg_rom[a % 0x8000]? else n.prg_rom[a % 0xC000]?)
  else some 0

/-- `NROM::cpu_write`; `none` models the panic on an out-of-bounds
index. -/
def NROM.cpuWrite (n : NROM) (a v : Nat) : Option NROM :=
  if 0x6000 ≤ a ∧ a ≤ 0x7FFF then
    (if a % 0x6000 < n.prg_ram.length
     then some { n with prg_ram := n.prg_ram.set (a % 0x6000) v } else none)
  else if 0x8000 ≤ a ∧ a ≤ 0xBFFF then
    (if a % 0x8000 < n.prg_rom.length
     then some { n with prg_rom := n.prg_rom.set (a % 0x8000) v } else none)
  else if 0xC000 ≤ a ∧ a ≤ 0xFFFF then
    (if n.prg_num = 2 then
       (if a % 0x8000 < n.prg_rom.length
        then some { n with prg_rom := n.prg_rom.set (a % 0x8000) v } else none)
     else
       (if a % 0xC000 < n.prg_rom.length
        then some { n with prg_rom := n.prg_rom.set (a % 0xC000) v } else none))
  else some n

/-- A sequence of `cpu_write`s applied in order. -/
def applyWrites (n : NROM) : List (Nat × Nat) → Option NROM
  | [] => some n
  | w :: ws => match n.cpuWrite w.1 w.2 with
    | some n' => applyWrites n' ws
    | none => none

/-- The bus-discipline property of the spec: every `read`/`write` event
in a trace is immediately preceded by a `cycle()` event. -/
def GoodTrace (t : List Ev) : Prop :=
  ∀ i e, t[i]? = some e → e.isAccess = true →
    0 < i ∧ t[i - 1]? = some Ev.cycle

/-- Traces the CPU can emit: any interleaving of standalone `cycle`
ticks and `cycle`-then-access pairs. -/
inductive Chunks : List Ev → Prop where
  | nil : Chunks []
  | cyc {t : List Ev} : Chunks t → Chunks (t ++ [Ev.cycle])
  | acc {t : List Ev} (e : Ev) : Chunks t → Chunks (t ++ [Ev.cycle, e])

/-! ### Concrete states and decode tables used by individual claims.

`ops.rs` (the `u8 → Operation` table) is not part of the provided
sources, so the concrete decode functions below are modelled from the
spec's instruction listing; each maps the single opcode byte a scenario
needs. -/

/-- ADC/SBC scenario state: accumulator `a`, carry `c`, every memory
byte equal to `b`, PC at `0x8000`. -/
def st0 (a : Nat) (c : Bool) (b : Nat) : Cpu :=
  { reg := { a := a, x := 0, y := 0, p := if c then 1 else 0, sp := 0xFD, pc := 0x8000 },
    mem := fun _ => b, trace := [], nmi := false }

/-- IndirectY scenario: `Y = 1`, zero-page pointer `$10` holding
`0x0100` (no page cross when adding Y). -/
def stC1a : Cpu :=
  { reg := { a := 0, x := 0, y := 1, p := 0, sp := 0xFD, pc := 0 },
    mem := fun a => if a = 0 then 0x10 else if a = 0x10 then 0x00
      else if a = 0x11 then 0x01 else 0,
    trace := [], nmi := false }

/-- IndirectY scenario: `Y = 1`, zero-page pointer `$10` holding
`0x01FF` (a page cross when adding Y). -/
def stC1b : Cpu :=
  { reg := { a := 0, x := 0, y := 1, p := 0, sp := 0xFD, pc := 0 },
    mem := fun a => if a = 0 then 0x10 else if a = 0x10 then 0xFF
      else if a = 0x11 then 0x01 else 0,
    trace := [], nmi := false }

/-- Branch scenario: carry set, offset byte `0xE0` (−32) at `0x010F`,
PC (after the operand fetch) `0x0110`; the signed target `0x00F0` is on
a different page. -/
def stC5 : Cpu :=
  { reg := { a := 0, x := 0, y := 0, p := 0x01, sp := 0xFD, pc := 0x010F },
    mem := fun a => if a = 0x010F then 0xE0 else 0,
    trace := [], nmi := false }

/-- `BNE $02` at `0x80FE`, Z clear (taken): opcode byte `0xD0` at
`0x80FE`, offset `0x02` at `0x80FF`, `P = 0x24`. -/
def stC6 : Cpu :=
  { reg := { a := 0, x := 0, y := 0, p := 0x24, sp := 0xFD, pc := 0x80FE },
    mem := fun a => if a = 0x80FE then 0xD0 else if a = 0x80FF then 0x02 else 0,
    trace := [], nmi := false }

/-- The same with Z set (`P = 0x26`): the branch is not taken. -/
def stC6n : Cpu :=
  { reg := { a := 0, x := 0, y := 0, p := 0x26, sp := 0xFD, pc := 0x80FE },
    mem := fun a => if a = 0x80FE then 0xD0 else if a = 0x80FF then 0x02 else 0,
    trace := [], nmi := false }

/-- Modelled from the spec: the decode-table entry for BNE
(`Branch(Zero, false)`) on opcode byte `0xD0`; every other byte is
unmapped. -/
def decodeC6 : Nat → Option Operation :=
  fun b => if b = 0xD0 then some (.Branch .Zero false) else none

/-- Indirect-JMP scenario: pointer operand `$02FF` at `0x8000`, target
bytes `0x34` at `$02FF` and `0x12` at `$0200`. -/
def stC7 : Cpu :=
  { reg := { a := 0, x := 0, y := 0, p := 0, sp := 0xFD, pc := 0x8000 },
    mem := fun a => if a = 0x8000 then 0xFF else if a = 0x8001 then 0x02
      else if a = 0x02FF then 0x34 else if a = 0x0200 then 0x12 else 0,
    trace := [], nmi := false }

/-- Unknown-opcode scenario: PC `0x8000`, every memory byte `0x02` (a
byte with no decode mapping on real 6502 tables). -/
def stC9 : Cpu :=
  { reg := { a := 0, x := 0, y := 0, p := 0x24, sp := 0xFD, pc := 0x8000 },
    mem := fun _ => 0x02, trace := [], nmi := false }

/-- Modelled from the spec: a decode table with no mapping at all (every
byte is an unknown instruction). -/
def decodeNone : Nat → Option Operation := fun _ => none

/-- Modelled from the spec: a decode table mapping every byte to the
implied NOP. -/
def decodeNop : Nat → Option Operation := fun _ => some (.Nop none)

/-- `read16`-overflow scenario: PC `0xFFFE`, so the Absolute operand
fetch runs `read16(0xFFFF)`. -/
def stC10 : Cpu :=
  { reg := { a := 0, x := 0, y := 0, p := 0x24, sp := 0xFD, pc := 0xFFFE },
    mem := fun _ => 0, trace := [], nmi := false }

/-- Modelled from the spec: a decode table mapping every byte to
`LDA abs` (`Load(A, Absolute)`). -/
def decodeC10 : Nat → Option Operation := fun _ => some (.Load .A .Absolute)

/-- A 1-PRG-page iNES image: header byte 4 is `1`, everything else
zero; total length `16 + 16384`. -/
def img1 : List Nat :=
  (List.range 16400).map fun i => if i = 4 then 1 else 0

/-- A 2-PRG-page iNES image whose two 16K halves differ: header byte 4
is `2`, PRG byte 0 (offset 16) is `7`, PRG byte `0x4000` is `0`. -/
def img2 : List Nat :=
  (List.range 32784).map fun i => if i = 4 then 2 else if i = 16 then 7 else 0

/-- The mapper built from `img1`. -/
def nrom1 : NROM := (NROM.new? img1).getD ⟨[], [], [], 0⟩

/-- The mapper built from `img2`. -/
def nrom2 : NROM := (NROM.new? img2).getD ⟨[], [], [], 0⟩

/-- The trace invariant threaded through every CPU operation: started
from a `Chunks` trace, the trace after the operation (panic or not) is
again a `Chunks` trace. -/
def Emits {α : Type} (m : M α) : Prop :=
  ∀ s : Cpu, Chunks s.trace → Chunks ((m s).2.trace)

/-! ### Trace-discipline infrastructure (claim C2).

`Emits m` states that the operation `m`, run from any state whose trace
is chunk-shaped, leaves a chunk-shaped trace — also when it models a
panic.  It composes through `bind`, so a lemma per CPU function
suffices. -/

theorem emits_mpure {α : Type} (a : α) : Emits (M.pure a) := fun _ h => h

theorem emits_fail {α : Type} : Emits (M.fail : M α) := fun _ h => h

theorem emits_bind {α β : Type} {m : M α} {f : α → M β} (hm : Emits m)
    (hf : ∀ a, Emits (f a)) : Emits (m >>= f) := by
  intro s hs
  show Chunks ((M.bind m f s).2.trace)
  rcases h : m s with ⟨a?, s'⟩
  have h2 : Chunks s'.trace := by have := hm s hs; rwa [h] at this
  cases a? with
  | none => simp only [M.bind, h]; exact h2
  | some a => simp only [M.bind, h]; exact hf a s' h2

theorem emits_ite {α : Type} (c : Prop) [Decidable c] {m1 m2 : M α}
    (h1 : Emits m1) (h2 : Emits m2) : Emits (if c then m1 else m2) := by
  split
  · exact h1
  · exact h2

theorem emits_tick : Emits tick := fun _ hs => Chunks.cyc hs

theorem emits_rd (a : Nat) : Emits (rd a) := by
  intro s hs
  show Chunks ((s.trace ++ [Ev.cycle]) ++ [Ev.rd a (s.mem a)])
  rw [List.append_assoc]
  exact Chunks.acc _ hs

theorem emits_wr (a v : Nat) : Emits (wr a v) := by
  intro s hs
  show Chunks ((s.trace ++ [Ev.cycle]) ++ [Ev.wr a v])
  rw [List.append_assoc]
  exact Chunks.acc _ hs

theorem emits_getReg (r : Register) : Emits (getReg r) := fun _ h => h

theorem emits_setReg (r : Register) (v : Nat) : Emits (setReg r v) := fun _ h => h

theorem emits_getPC : Emits getPC := fun _ h => h

theorem emits_setPC (v : Nat) : Emits (setPC v) := fun _ h => h

theorem emits_getFlag (f : Flag) : Emits (getFlag f) := fun _ h => h

theorem emits_setFlag (f : Flag) (v : Bool) : Emits (setFlag f v) := fun _ h => h

theorem emits_updZN (v : Nat) : Emits (updZN v) := fun _ h => h

theorem emits_updCV (x y r : Nat) : Emits (updCV x y r) := fun _ h => h

theorem emits_getNmi : Emits getNmi := fun _ h => h

theorem emits_read16 (a : Nat) : Emits (read16 a) := by
  unfold read16
  exact emits_bind (emits_rd a) fun lo =>
    emits_bind (emits_ite _ emits_fail (emits_mpure ())) fun _ =>
      emits_bind (emits_rd (a + 1)) fun hi => emits_mpure _

theorem emits_push (v : Nat) : Emits (push v) := by
  unfold push
  exact emits_bind (emits_getReg .SP) fun sp =>
    emits_bind (emits_wr (sp + 0x100) v) fun _ => emits_setReg .SP _

theorem emits_push16 (v : Nat) : Emits (push16 v) := by
  unfold push16
  exact emits_bind (emits_push _) fun _ => emits_push _

theorem emits_pop : Emits pop := by
  unfold pop
  exact emits_bind (emits_getReg .SP) fun sp0 =>
    emits_bind (emits_setReg .SP _) fun _ => emits_rd _

theorem emits_pop16 : Emits pop16 := by
  unfold pop16
  exact emits_bind emits_pop fun lo => emits_bind emits_pop fun hi => emits_mpure _

theorem emits_imm : Emits imm := by
  unfold imm
  exact emits_bind emits_getPC fun p => emits_bind (emits_setPC _) fun _ => emits_mpure _

theorem emits_imm16 : Emits imm16 := by
  unfold imm16
  exact emits_bind emits_getPC fun p => emits_bind (emits_setPC _) fun _ => emits_mpure _

theorem emits_absm : Emits absm := by
  unfold absm
  exact emits_bind emits_imm16 fun i => emits_read16 i

theorem emits_abi (extra : Bool) (r : Register) : Emits (abi extra r) := by
  unfold abi
  exact emits_bind emits_absm fun a =>
    emits_bind (emits_getReg r) fun reg =>
      emits_bind (emits_ite _ emits_tick (emits_mpure ())) fun _ => emits_mpure _

theorem emits_zp : Emits zp := by
  unfold zp
  exact emits_bind emits_imm fun i => emits_rd i

theorem emits_zpi (r : Register) : Emits (zpi r) := by
  unfold zpi
  exact emits_bind emits_zp fun a =>
    emits_bind emits_tick fun _ =>
      emits_bind (emits_getReg r) fun v => emits_mpure _

theorem emits_izx : Emits izx := by
  unfold izx
  exact emits_bind emits_imm fun i =>
    emits_bind (emits_rd i) fun z =>
      emits_bind (emits_getReg .X) fun x =>
        emits_bind emits_tick fun _ =>
          emits_ite _
            (emits_bind (emits_rd 0xFF) fun lo =>
              emits_bind (emits_rd 0x00) fun hi => emits_mpure _)
            (emits_read16 _)

theorem emits_izy (extra : Bool) : Emits (izy extra) := by
  unfold izy
  exact emits_bind emits_imm fun i =>
    emits_bind (emits_rd i) fun zb =>
      emits_bind (emits_getReg .Y) fun y =>
        emits_bind emits_tick fun _ =>
          emits_bind
            (emits_ite _
              (emits_bind (emits_rd 0xFF) fun lo =>
                emits_bind (emits_rd 0x00) fun hi => emits_mpure _)
              (emits_read16 _)) fun addr =>
            emits_bind (emits_ite _ emits_tick (emits_mpure ())) fun _ =>
              emits_mpure _

theorem emits_ind : Emits ind := by
  unfold ind
  exact emits_bind emits_imm16 fun i =>
    emits_bind (emits_read16 i) fun addr =>
      emits_ite _
        (emits_bind (emits_rd addr) fun lo =>
          emits_bind (emits_rd (addr - 0xFF)) fun hi => emits_mpure _)
        (emits_read16 _)

theorem emits_resolve_addr (m : AddressingMode) : Emits (resolve_addr m) := by
  cases m with
  | Immediate => exact emits_imm
  | Absolute => exact emits_absm
  | AbsoluteX e => exact emits_abi e .X
  | AbsoluteY e => exact emits_abi e .Y
  | ZeroPage => exact emits_zp
  | ZeroPageX => exact emits_zpi .X
  | ZeroPageY => exact emits_zpi .Y
  | Indirect => exact emits_ind
  | IndirectX => exact emits_izx
  | IndirectY e => exact emits_izy e

theorem emits_load (r : Register) (m : AddressingMode) : Emits (load r m) := by
  unfold load
  exact emits_bind (emits_resolve_addr m) fun addr =>
    emits_bind (emits_rd addr) fun v => emits_setReg r v

theorem emits_store (r : Register) (m : AddressingMode) : Emits (store r m) := by
  unfold store
  exact emits_bind (emits_resolve_addr m) fun addr =>
    emits_bind (emits_getReg r) fun v => emits_wr addr v

theorem emits_transfer (r1 r2 : Register) : Emits (transfer r1 r2) := by
  unfold transfer
  exact emits_bind (emits_getReg r1) fun v => emits_setReg r2 v

theorem emits_add (m : AddressingMode) : Emits (add m) := by
  unfold add
  exact emits_bind (emits_resolve_addr m) fun addr =>
    emits_bind (emits_getReg .A) fun a =>
      emits_bind (emits_rd addr) fun b =>
        emits_bind (emits_getFlag .Carry) fun cf =>
          emits_bind (emits_updCV _ _ _) fun _ => emits_setReg .A _

theorem emits_dec_m (m : AddressingMode) : Emits (dec_m m) := by
  unfold dec_m
  exact emits_bind (emits_resolve_addr m) fun addr =>
    emits_bind (emits_rd addr) fun v =>
      emits_bind emits_tick fun _ =>
        emits_bind (emits_updZN _) fun _ => emits_wr addr _

theorem emits_dec_r (r : Register) : Emits (dec_r r) := by
  unfold dec_r
  exact emits_bind (emits_getReg r) fun v0 =>
    emits_bind (emits_setReg r _) fun _ => emits_tick

theorem emits_inc_m (m : AddressingMode) : Emits (inc_m m) := by
  unfold inc_m
  exact emits_bind (emits_resolve_addr m) fun addr =>
    emits_bind (emits_rd addr) fun v =>
      emits_bind emits_tick fun _ =>
        emits_bind (emits_updZN _) fun _ => emits_wr addr _

theorem emits_inc_r (r : Register) : Emits (inc_r r) := by
  unfold inc_r
  exact emits_bind (emits_getReg r) fun v0 =>
    emits_bind (emits_setReg r _) fun _ => emits_tick

theorem emits_sub (m : AddressingMode) : Emits (sub m) := by
  unfold sub
  exact emits_bind (emits_resolve_addr m) fun addr =>
    emits_bind (emits_getReg .A) fun a =>
      emits_bind (emits_rd addr) fun b0 =>
        emits_bind (emits_getFlag .Carry) fun cf =>
          emits_bind (emits_updCV _ _ _) fun _ => emits_setReg .A _

theorem emits_andOp (m : AddressingMode) : Emits (andOp m) := by
  unfold andOp
  exact emits_bind (emits_resolve_addr m) fun addr =>
    emits_bind (emits_rd addr) fun v =>
      emits_bind (emits_getReg .A) fun a => emits_setReg .A _

theorem emits_asl_a : Emits asl_a := by
  unfold asl_a
  exact emits_bind (emits_getReg .A) fun v =>
    emits_bind (emits_setFlag .Carry _) fun _ =>
      emits_bind (emits_setReg .A _) fun _ => emits_tick

theorem emits_asl (m : AddressingMode) : Emits (asl m) := by
  unfold asl
  exact emits_bind (emits_resolve_addr m) fun addr =>
    emits_bind (emits_rd addr) fun v =>
      emits_bind (emits_setFlag .Carry _) fun _ =>
        emits_bind emits_tick fun _ =>
          emits_bind (emits_updZN _) fun _ => emits_wr addr _

theorem emits_bits (m : AddressingMode) : Emits (bits m) := by
  unfold bits
  exact emits_bind (emits_resolve_addr m) fun addr =>
    emits_bind (emits_rd addr) fun v =>
      emits_bind (emits_getReg .A) fun a =>
        emits_bind (emits_setFlag .Zero _) fun _ =>
          emits_bind (emits_setFlag .Overflow _) fun _ => emits_setFlag .Negative _

theorem emits_xorOp (m : AddressingMode) : Emits (xorOp m) := by
  unfold xorOp
  exact emits_bind (emits_resolve_addr m) fun addr =>
    emits_bind (emits_rd addr) fun v =>
      emits_bind (emits_getReg .A) fun a => emits_setReg .A _

theorem emits_lsr_a : Emits lsr_a := by
  unfold lsr_a
  exact emits_bind (emits_getReg .A) fun v =>
    emits_bind (emits_setFlag .Carry _) fun _ =>
      emits_bind (emits_setReg .A _) fun _ => emits_tick

theorem emits_lsr (m : AddressingMode) : Emits (lsr m) := by
  unfold lsr
  exact emits_bind (emits_resolve_addr m) fun addr =>
    emits_bind (emits_rd addr) fun v =>
      emits_bind (emits_setFlag .Carry _) fun _ =>
        emits_bind emits_tick fun _ =>
          emits_bind (emits_updZN _) fun _ => emits_wr addr _

theorem emits_orOp (m : AddressingMode) : Emits (orOp m) := by
  unfold orOp
  exact emits_bind (emits_resolve_addr m) fun addr =>
    emits_bind (emits_rd addr) fun v =>
      emits_bind (emits_getReg .A) fun a => emits_setReg .A _

theorem emits_flag (f : Flag) (v : Bool) : Emits (flag f v) := by
  unfold flag
  exact emits_bind (emits_setFlag f v) fun _ => emits_tick

theorem emits_compare (r : Register) (m : AddressingMode) : Emits (compare r m) := by
  unfold compare
  exact emits_bind (emits_getReg r) fun reg =>
    emits_bind (emits_resolve_addr m) fun addr =>
      emits_bind (emits_rd addr) fun v =>
        emits_bind (emits_setFlag .Carry _) fun _ =>
          emits_bind (emits_setFlag .Zero _) fun _ => emits_setFlag .Negative _

theorem emits_jsr : Emits jsr := by
  unfold jsr
  exact emits_bind emits_getPC fun pc =>
    emits_bind emits_tick fun _ =>
      emits_bind (emits_push16 _) fun _ =>
        emits_bind emits_imm16 fun addr =>
          emits_bind (emits_read16 addr) fun v => emits_setPC v

theorem emits_jump (m : AddressingMode) : Emits (jump m) := by
  unfold jump
  exact emits_bind (emits_resolve_addr m) fun addr => emits_setPC addr

theorem emits_stackOp (r : Register) (b : Bool) : Emits (stackOp r b) := by
  unfold stackOp
  split
  · refine emits_bind emits_tick fun _ => ?_
    refine emits_bind ?_ fun v => emits_push v
    cases r with
    | P => exact emits_bind (emits_getReg .P) fun v => emits_mpure _
    | A => exact emits_getReg .A
    | X => exact emits_getReg .X
    | Y => exact emits_getReg .Y
    | SP => exact emits_getReg .SP
  · exact emits_bind emits_tick fun _ =>
      emits_bind emits_tick fun _ =>
        emits_bind emits_pop fun v => emits_setReg r v

theorem emits_rti : Emits rti := by
  unfold rti
  exact emits_bind (emits_stackOp .P false) fun _ =>
    emits_bind emits_pop16 fun addr => emits_setPC addr

theorem emits_rts : Emits rts := by
  unfold rts
  exact emits_bind emits_tick fun _ =>
    emits_bind emits_tick fun _ =>
      emits_bind emits_pop16 fun a0 =>
        emits_bind (emits_setPC _) fun _ => emits_tick

theorem emits_brk : Emits brk := by
  unfold brk
  exact emits_bind emits_getPC fun pc =>
    emits_bind (emits_push16 _) fun _ =>
      emits_bind (emits_getReg .P) fun p =>
        emits_bind (emits_push _) fun _ =>
          emits_bind (emits_setFlag .Interrupt true) fun _ =>
            emits_bind emits_getNmi fun nmi =>
              emits_bind (emits_ite _ (emits_read16 _) (emits_read16 _)) fun v =>
                emits_setPC v

theorem emits_branch (cond : Flag) (w : Bool) : Emits (branch cond w) := by
  unfold branch
  exact emits_bind emits_imm fun addr =>
    emits_bind (emits_rd addr) fun v =>
      emits_bind (emits_getFlag cond) fun fl =>
        emits_ite _
          (emits_bind emits_tick fun _ =>
            emits_bind emits_getPC fun pc =>
              emits_bind (emits_ite _ emits_tick (emits_mpure ())) fun _ =>
                emits_ite _ emits_fail (emits_setPC _))
          (emits_mpure ())

theorem emits_nop (m : Option AddressingMode) : Emits (nop m) := by
  unfold nop
  refine emits_bind ?_ fun _ => emits_tick
  cases m with
  | some m =>
    exact emits_bind (emits_resolve_addr m) fun addr =>
      emits_bind (emits_rd addr) fun _ => emits_mpure _
  | none => exact emits_mpure _

theorem emits_rol_a : Emits rol_a := by
  unfold rol_a
  exact emits_bind (emits_getFlag .Carry) fun cf =>
    emits_bind (emits_getReg .A) fun v =>
      emits_bind (emits_setFlag .Carry _) fun _ =>
        emits_bind (emits_setReg .A _) fun _ => emits_tick

theorem emits_rol (m : AddressingMode) : Emits (rol m) := by
  unfold rol
  exact emits_bind (emits_getFlag .Carry) fun cf =>
    emits_bind (emits_resolve_addr m) fun addr =>
      emits_bind (emits_rd addr) fun v =>
        emits_bind (emits_setFlag .Carry _) fun _ =>
          emits_bind emits_tick fun _ =>
            emits_bind (emits_updZN _) fun _ => emits_wr addr _

theorem emits_ror_a : Emits ror_a := by
  unfold ror_a
  exact emits_bind (emits_getFlag .Carry) fun cf =>
    emits_bind (emits_getReg .A) fun v =>
      emits_bind (emits_setFlag .Carry _) fun _ =>
        emits_bind (emits_setReg .A _) fun _ => emits_tick

theorem emits_ror (m : AddressingMode) : Emits (ror m) := by
  unfold ror
  exact emits_bind (emits_getFlag .Carry) fun cf =>
    emits_bind (emits_resolve_addr m) fun addr =>
      emits_bind (emits_rd addr) fun v =>
        emits_bind (emits_setFlag .Carry _) fun _ =>
          emits_bind emits_tick fun _ =>
            emits_bind (emits_updZN _) fun _ => emits_wr addr _

theorem emits_lax (m : AddressingMode) : Emits (lax m) := by
  unfold lax
  exact emits_bind (emits_resolve_addr m) fun addr =>
    emits_bind (emits_rd addr) fun v =>
      emits_bind (emits_setReg .A v) fun _ => emits_setReg .X v

theorem emits_sax (m : AddressingMode) : Emits (sax m) := by
  unfold sax
  exact emits_bind (emits_resolve_addr m) fun addr =>
    emits_bind (emits_getReg .A) fun a =>
      emits_bind (emits_getReg .X) fun x => emits_wr addr _

theorem emits_dcp (m : AddressingMode) : Emits (dcp m) := by
  unfold dcp
  exact emits_bind (emits_resolve_addr m) fun addr =>
    emits_bind (emits_rd addr) fun v =>
      emits_bind emits_tick fun _ =>
        emits_bind (emits_getReg .A) fun reg =>
          emits_bind (emits_setFlag .Carry _) fun _ =>
            emits_bind (emits_setFlag .Zero _) fun _ =>
              emits_bind (emits_setFlag .Negative _) fun _ => emits_wr addr _

theorem emits_isb (m : AddressingMode) : Emits (isb m) := by
  unfold isb
  exact emits_bind (emits_resolve_addr m) fun addr =>
    emits_bind (emits_rd addr) fun v =>
      emits_bind emits_tick fun _ =>
        emits_bind (emits_getReg .A) fun a =>
          emits_bind (emits_getFlag .Carry) fun cf =>
            emits_bind (emits_updCV _ _ _) fun _ =>
              emits_bind (emits_setReg .A _) fun _ => emits_wr addr _

theorem emits_slo (m : AddressingMode) : Emits (slo m) := by
  unfold slo
  exact emits_bind (emits_resolve_addr m) fun addr =>
    emits_bind (emits_rd addr) fun v =>
      emits_bind emits_tick fun _ =>
        emits_bind (emits_setFlag .Carry _) fun _ =>
          emits_bind (emits_getReg .A) fun a =>
            emits_bind (emits_updZN _) fun _ =>
              emits_bind (emits_setReg .A _) fun _ => emits_wr addr _

theorem emits_rla (m : AddressingMode) : Emits (rla m) := by
  unfold rla
  exact emits_bind (emits_resolve_addr m) fun addr =>
    emits_bind (emits_rd addr) fun v =>
      emits_bind emits_tick fun _ =>
        emits_bind (emits_getFlag .Carry) fun cf =>
          emits_bind (emits_setFlag .Carry _) fun _ =>
            emits_bind (emits_getReg .A) fun a =>
              emits_bind (emits_updZN _) fun _ =>
                emits_bind (emits_setReg .A _) fun _ => emits_wr addr _

theorem emits_sre (m : AddressingMode) : Emits (sre m) := by
  unfold sre
  exact emits_bind (emits_resolve_addr m) fun addr =>
    emits_bind (emits_rd addr) fun v =>
      emits_bind emits_tick fun _ =>
        emits_bind (emits_setFlag .Carry _) fun _ =>
          emits_bind (emits_getReg .A) fun a =>
            emits_bind (emits_updZN _) fun _ =>
              emits_bind (emits_setReg .A _) fun _ => emits_wr addr _

theorem emits_rra (m : AddressingMode) : Emits (rra m) := by
  unfold rra
  exact emits_bind (emits_resolve_addr m) fun addr =>
    emits_bind (emits_rd addr) fun v =>
      emits_bind emits_tick fun _ =>
        emits_bind (emits_getFlag .Carry) fun cf =>
          emits_bind (emits_setFlag .Carry _) fun _ =>
            emits_bind (emits_updZN _) fun _ =>
              emits_bind (emits_getReg .A) fun a =>
                emits_bind (emits_getFlag .Carry) fun cf2 =>
                  emits_bind (emits_updCV _ _ _) fun _ =>
                    emits_bind (emits_setReg .A _) fun _ => emits_wr addr _

theorem emits_aac (m : AddressingMode) : Emits (aac m) := by
  unfold aac
  exact emits_bind (emits_resolve_addr m) fun addr =>
    emits_bind (emits_rd addr) fun v =>
      emits_bind (emits_getReg .A) fun a =>
        emits_bind (emits_setReg .A _) fun _ =>
          emits_bind (emits_getFlag .Negative) fun b => emits_setFlag .Carry b

theorem emits_asr (m : AddressingMode) : Emits (asr m) := by
  unfold asr
  exact emits_bind (emits_resolve_addr m) fun addr =>
    emits_bind (emits_rd addr) fun v =>
      emits_bind (emits_getReg .A) fun reg =>
        emits_bind (emits_setReg .A _) fun _ =>
          emits_bind (emits_getReg .A) fun res =>
            emits_bind (emits_setFlag .Carry _) fun _ => emits_setReg .A _

theorem emits_arr (m : AddressingMode) : Emits (arr m) := by
  unfold arr
  exact emits_bind (emits_resolve_addr m) fun addr =>
    emits_bind (emits_rd addr) fun v =>
      emits_bind (emits_getFlag .Carry) fun cf =>
        emits_bind (emits_getReg .A) fun a =>
          emits_bind (emits_setReg .A _) fun _ =>
            emits_bind (emits_getReg .A) fun reg =>
              emits_bind (emits_setFlag .Carry _) fun _ =>
                emits_bind (emits_getFlag .Carry) fun cf2 => emits_setFlag .Overflow _

theorem emits_atx (m : AddressingMode) : Emits (atx m) := by
  unfold atx
  exact emits_bind (emits_resolve_addr m) fun addr =>
    emits_bind (emits_rd addr) fun v =>
      emits_bind (emits_setReg .A v) fun _ =>
        emits_bind (emits_setReg .X v) fun _ => emits_setReg .A v

theorem emits_axs (m : AddressingMode) : Emits (axs m) := by
  unfold axs
  exact emits_bind (emits_resolve_addr m) fun addr =>
    emits_bind (emits_rd addr) fun v =>
      emits_bind (emits_getReg .A) fun a =>
        emits_bind (emits_getReg .X) fun x =>
          emits_bind (emits_setFlag .Carry _) fun _ => emits_setReg .X _

theorem emits_sa (r : Register) (m : AddressingMode) : Emits (sa r m) := by
  unfold sa
  exact emits_bind (emits_resolve_addr m) fun addr =>
    emits_bind (emits_getReg r) fun v => emits_wr _ _

theorem emits_dispatch (p : Nat) (op : Operation) : Emits (dispatch p op) := by
  cases op with
  | Load r m => exact emits_bind (emits_load r m) fun _ => emits_mpure _
  | Store r m => exact emits_bind (emits_store r m) fun _ => emits_mpure _
  | Transfer r1 r2 => exact emits_bind (emits_transfer r1 r2) fun _ => emits_mpure _
  | Add m => exact emits_bind (emits_add m) fun _ => emits_mpure _
  | Inc r m =>
    cases r with
    | some r' =>
      cases m with
      | some m' => exact emits_bind (emits_inc_r r') fun _ => emits_mpure _
      | none => exact emits_bind (emits_inc_r r') fun _ => emits_mpure _
    | none =>
      cases m with
      | some m' => exact emits_bind (emits_inc_m m') fun _ => emits_mpure _
      | none => exact emits_mpure _
  | Dec r m =>
    cases r with
    | some r' =>
      cases m with
      | some m' => exact emits_bind (emits_dec_r r') fun _ => emits_mpure _
      | none => exact emits_bind (emits_dec_r r') fun _ => emits_mpure _
    | none =>
      cases m with
      | some m' => exact emits_bind (emits_dec_m m') fun _ => emits_mpure _
      | none => exact emits_mpure _
  | Sub m => exact emits_bind (emits_sub m) fun _ => emits_mpure _
  | And m => exact emits_bind (emits_andOp m) fun _ => emits_mpure _
  | Asl m =>
    cases m with
    | none => exact emits_bind emits_asl_a fun _ => emits_mpure _
    | some m' => exact emits_bind (emits_asl m') fun _ => emits_mpure _
  | Bits m => exact emits_bind (emits_bits m) fun _ => emits_mpure _
  | Xor m => exact emits_bind (emits_xorOp m) fun _ => emits_mpure _
  | Lsr m =>
    cases m with
    | none => exact emits_bind emits_lsr_a fun _ => emits_mpure _
    | some m' => exact emits_bind (emits_lsr m') fun _ => emits_mpure _
  | Or m => exact emits_bind (emits_orOp m) fun _ => emits_mpure _
  | Rol m =>
    cases m with
    | none => exact emits_bind emits_rol_a fun _ => emits_mpure _
    | some m' => exact emits_bind (emits_rol m') fun _ => emits_mpure _
  | Ror m =>
    cases m with
    | none => exact emits_bind emits_ror_a fun _ => emits_mpure _
    | some m' => exact emits_bind (emits_ror m') fun _ => emits_mpure _
  | Branch f b => exact emits_bind (emits_branch f b) fun _ => emits_mpure _
  | Jump m =>
    cases m with
    | none => exact emits_bind emits_jsr fun _ => emits_mpure _
    | some m' => exact emits_bind (emits_jump m') fun _ => emits_mpure _
  | Ret b =>
    cases b with
    | true => exact emits_bind emits_rts fun _ => emits_mpure _
    | false => exact emits_bind emits_rti fun _ => emits_mpure _
  | Flag f b => exact emits_bind (emits_flag f b) fun _ => emits_mpure _
  | Compare r m => exact emits_bind (emits_compare r m) fun _ => emits_mpure _
  | Stack r b => exact emits_bind (emits_stackOp r b) fun _ => emits_mpure _
  | Break => exact emits_bind emits_brk fun _ => emits_mpure _
  | Nop m => exact emits_bind (emits_nop m) fun _ => emits_mpure _
  | Lax m => exact emits_bind (emits_lax m) fun _ => emits_mpure _
  | Sax m => exact emits_bind (emits_sax m) fun _ => emits_mpure _
  | Dcp m => exact emits_bind (emits_dcp m) fun _ => emits_mpure _
  | Isb m => exact emits_bind (emits_isb m) fun _ => emits_mpure _
  | Slo m => exact emits_bind (emits_slo m) fun _ => emits_mpure _
  | Rla m => exact emits_bind (emits_rla m) fun _ => emits_mpure _
  | Sre m => exact emits_bind (emits_sre m) fun _ => emits_mpure _
  | Rra m => exact emits_bind (emits_rra m) fun _ => emits_mpure _
  | Aac m => exact emits_bind (emits_aac m) fun _ => emits_mpure _
  | Asr m => exact emits_bind (emits_asr m) fun _ => emits_mpure _
  | Arr m => exact emits_bind (emits_arr m) fun _ => emits_mpure _
  | Atx m => exact emits_bind (emits_atx m) fun _ => emits_mpure _
  | Axs m => exact emits_bind (emits_axs m) fun _ => emits_mpure _
  | Sa r m => exact emits_bind (emits_sa r m) fun _ => emits_mpure _

theorem emits_execute (decode : Nat → Option Operation) : Emits (execute decode) := by
  unfold execute
  refine emits_bind emits_imm fun p => ?_
  refine emits_bind (emits_rd p) fun b => ?_
  cases decode b with
  | some op => exact emits_dispatch p op
  | none => exact emits_mpure _

theorem emits_initStep : Emits initStep := by
  unfold initStep
  exact emits_bind (emits_read16 0xFFFC) fun reset =>
    emits_bind (emits_setPC reset) fun _ =>
      emits_bind (emits_setReg .SP 0xFD) fun _ => emits_setReg .P 0x24

theorem emits_steps (decode : Nat → Option Operation) (n : Nat) :
    Emits (steps decode n) := by
  induction n with
  | zero => exact emits_mpure ()
  | succ k ih =>
    show Emits (steps decode (k + 1))
    unfold steps
    exact emits_bind (emits_execute decode) fun _ => ih

theorem chunks_goodTrace {t : List Ev} (h : Chunks t) : GoodTrace t := by
  induction h with
  | nil =>
    intro i e hi _
    simp at hi
  | @cyc t ht ih =>
    intro i e hi hacc
    rw [List.getElem?_append] at hi
    by_cases hlt : i < t.length
    · rw [if_pos hlt] at hi
      obtain ⟨hpos, hprev⟩ := ih i e hi hacc
      refine ⟨hpos, ?_⟩
      rw [List.getElem?_append, if_pos (by omega)]
      exact hprev
    · rw [if_neg hlt] at hi
      have hz : i - t.length = 0 := by
        by_contra hne
        have h1 : ([Ev.cycle] : List Ev)[i - t.length]? = none := by
          apply List.getElem?_eq_none
          simp
          omega
        rw [h1] at hi
        exact Option.noConfusion hi
      rw [hz] at hi
      simp at hi
      subst hi
      simp [Ev.isAccess] at hacc
  | @acc t e0 ht ih =>
    intro i e hi hacc
    rw [List.getElem?_append] at hi
    by_cases hlt : i < t.length
    · rw [if_pos hlt] at hi
      obtain ⟨hpos, hprev⟩ := ih i e hi hacc
      refine ⟨hpos, ?_⟩
      rw [List.getElem?_append, if_pos (by omega)]
      exact hprev
    · rw [if_neg hlt] at hi
      rcases heq : i - t.length with _ | j
      · rw [heq] at hi
        simp at hi
        subst hi
        simp [Ev.isAccess] at hacc
      · rcases j with _ | j2
        · refine ⟨by omega, ?_⟩
          have hprev : i - 1 = t.length := by omega
          rw [hprev, List.getElem?_append, if_neg (by omega)]
          simp
        · rw [heq] at hi
          have h1 : ([Ev.cycle, e0] : List Ev)[j2 + 2]? = none := by
            apply List.getElem?_eq_none
            simp
          rw [h1] at hi
          exact Option.noConfusion hi

/-- Claim C2: for every sequence of `execute()` steps after `init()` —
over any decode table and any memory image — every `read`/`write` event
on the bus trace is immediately preceded by exactly one `cycle()` event;
no access appears without a `cycle()` directly before it. -/
theorem C2_cycle_precedes_access (decode : Nat → Option Operation)
    (mem : Nat → Nat) (n : Nat) :
    GoodTrace (runCpu decode mem n).2.trace := by
  apply chunks_goodTrace
  have h : Emits (initStep >>= fun _ => steps decode n) :=
    emits_bind emits_initStep fun _ => emits_steps decode n
  exact h (mkCpu mem) Chunks.nil

/-- Claim C1, evaluated at the failing inputs: `izy` with the `extra`
flag gates its standalone tick on `cross(base -w Y, Y)` instead of the
claimed `(base + Y) & 0xFF00 != base & 0xFF00`.  With pointer base
`0x0100` and `Y = 1` (no page cross, so the claim predicts 4 cycles)
`izy` emits 5; with base `0x01FF` and `Y = 1` (a page cross, claim
predicts 5) it emits 4. -/
theorem C1_izy_page_cross_bug :
    ((izy true stC1a).1 = some 0x0101 ∧
      countCycles (izy true stC1a).2.trace = 5 ∧
      (0x0100 + 1) &&& 0xFF00 = 0x0100 &&& 0xFF00) ∧
    ((izy true stC1b).1 = some 0x0200 ∧
      countCycles (izy true stC1b).2.trace = 4 ∧
      (0x01FF + 1) &&& 0xFF00 ≠ 0x01FF &&& 0xFF00) := by
  exact ⟨⟨by decide, by decide, by decide⟩, ⟨by decide, by decide, by decide⟩⟩

/-- Claim C5, evaluated at the failing input: a taken branch with
offset byte `0xE0` (−32) from post-fetch PC `0x0110` lands on `0x00F0`
— a different page, so the claim predicts the second extra tick (3
handler cycles) — but `branch` tests `cross(pc, 0xE0)` with the raw
unsigned byte and emits only 2 cycles. -/
theorem C5_branch_signed_cross_bug :
    (branch .Carry true stC5).1 = some () ∧
    (branch .Carry true stC5).2.reg.pc = 0x00F0 ∧
    countCycles (branch .Carry true stC5).2.trace = 2 ∧
    0x00F0 &&& 0xFF00 ≠ 0x0110 &&& 0xFF00 := by
  exact ⟨by decide, by decide, by decide, by decide⟩

/-- Claim C6 counterexample: the taken `BNE $02` at `0x80FE` does not
consume 4 bus cycles. -/
theorem C6_counterexample : countCycles (execute decodeC6 stC6).2.trace ≠ 4 := by
  decide

/-- Claim C6 as amended: the taken `BNE $02` at `0x80FE` jumps to
`0x8102` and consumes 3 cycles (2 base + 1 taken; no page-cross penalty,
since post-fetch PC `0x8100` and target `0x8102` share a page); the
not-taken execution consumes 2 cycles. -/
theorem C6_branch_cycles :
    (execute decodeC6 stC6).2.reg.pc = 0x8102 ∧
    countCycles (execute decodeC6 stC6).2.trace = 3 ∧
    (execute decodeC6 stC6n).2.reg.pc = 0x8100 ∧
    countCycles (execute decodeC6 stC6n).2.trace = 2 := by
  exact ⟨by decide, by decide, by decide, by decide⟩

/-- Claim C9, evaluated at the failing input: with an unmapped opcode
byte `0x02` fetched from `0x8000`, `execute` reports
`"Bad Instruction 8000"` — the fetch address, not the opcode byte — and
a mapped byte (here decoding to the implied NOP) succeeds. -/
theorem C9_unknown_opcode_message :
    (execute decodeNone stC9).1 = some (Except.error ("Bad Instruction 8000")) ∧
    stC9.mem 0x8000 = 0x02 ∧
    (execute decodeNop stC9).1 = some (Except.ok ()) := by
  exact ⟨rfl, rfl, rfl⟩

theorem bind_eq_mbind {α β : Type} (m : M α) (f : α → M β) : m >>= f = M.bind m f := rfl

theorem lor_shift8 : ∀ x : Nat, x < 256 → (0xFF ||| (x <<< 8)) = x * 256 + 0xFF := by
  decide

theorem land_ff : ∀ x : Nat, x < 256 → ((x * 256 + 0xFF) &&& 0xFF) = 0xFF := by
  decide

/-- Claim C3: ADC with accumulator `a`, operand `b` and carry `c`
computes `r = a + b + c` (16-bit), stores `r & 0xFF` in A, sets C iff
`r > 0xFF` and V iff `(~(a^b) & (a^r) & 0x80) != 0`; SBC on operand `b`
leaves the register file exactly as ADC on `b ^ 0xFF` does. -/
theorem C3_adc_sbc_law (a b : Nat) (c : Bool) (ha : a < 256) (hb : b < 256) :
    (add .Immediate (st0 a c b)).2.reg.a = (a + b + (if c then 1 else 0)) % 256 ∧
    ((add .Immediate (st0 a c b)).2.reg.check_flag .Carry
      = decide (0xFF < a + b + (if c then 1 else 0))) ∧
    ((add .Immediate (st0 a c b)).2.reg.check_flag .Overflow
      = decide (((a ^^^ b) ^^^ 0xFF) &&& (a ^^^ (a + b + (if c then 1 else 0))) &&& 0x80 ≠ 0)) ∧
    (sub .Immediate (st0 a c b)).2.reg = (add .Immediate (st0 a c (b ^^^ 0xFF))).2.reg := by
  cases c with
  | false =>
    refine ⟨?_, ?_, ?_, ?_⟩
    · simp [add, sub, resolve_addr, imm, rd, getReg, setReg, getPC, setPC, getFlag, updCV,
        st0, Registers.check_flag, Registers.read, Registers.write, Registers.update_zn,
        Registers.update_cv, flagMask, bind_eq_mbind, M.bind, M.pure,
        Cpu.busCycle, Cpu.busRead]
    · rcases Nat.lt_or_ge 0xFF (a + b) with hc | hc
      · simp [add, sub, resolve_addr, imm, rd, getReg, setReg, getPC, setPC, getFlag, updCV,
          st0, Registers.check_flag, Registers.read, Registers.write, Registers.update_zn,
          Registers.update_cv, flagMask, bind_eq_mbind, M.bind, M.pure,
          Cpu.busCycle, Cpu.busRead, hc] <;> (first | decide | (split_ifs <;> decide))
      · have hc' : ¬ (0xFF < a + b) := by omega
        simp [add, sub, resolve_addr, imm, rd, getReg, setReg, getPC, setPC, getFlag, updCV,
          st0, Registers.check_flag, Registers.read, Registers.write, Registers.update_zn,
          Registers.update_cv, flagMask, bind_eq_mbind, M.bind, M.pure,
          Cpu.busCycle, Cpu.busRead, hc'] <;> (first | decide | (split_ifs <;> decide))
    · by_cases hv : ((a ^^^ b) ^^^ 0xFF) &&& (a ^^^ (a + b)) &&& 0x80 ≠ 0
      · simp [add, sub, resolve_addr, imm, rd, getReg, setReg, getPC, setPC, getFlag, updCV,
          st0, Registers.check_flag, Registers.read, Registers.write, Registers.update_zn,
          Registers.update_cv, flagMask, bind_eq_mbind, M.bind, M.pure,
          Cpu.busCycle, Cpu.busRead, hv] <;> (first | decide | (split_ifs <;> decide))
      · simp [add, sub, resolve_addr, imm, rd, getReg, setReg, getPC, setPC, getFlag, updCV,
          st0, Registers.check_flag, Registers.read, Registers.write, Registers.update_zn,
          Registers.update_cv, flagMask, bind_eq_mbind, M.bind, M.pure,
          Cpu.busCycle, Cpu.busRead, hv] <;> (first | decide | (split_ifs <;> decide))
    · simp [add, sub, resolve_addr, imm, rd, getReg, setReg, getPC, setPC, getFlag, updCV,
        st0, Registers.check_flag, Registers.read, Registers.write, Registers.update_zn,
        Registers.update_cv, flagMask, bind_eq_mbind, M.bind, M.pure,
        Cpu.busCycle, Cpu.busRead]
  | true =>
    refine ⟨?_, ?_, ?_, ?_⟩
    · simp [add, sub, resolve_addr, imm, rd, getReg, setReg, getPC, setPC, getFlag, updCV,
        st0, Registers.check_flag, Registers.read, Registers.write, Registers.update_zn,
        Registers.update_cv, flagMask, bind_eq_mbind, M.bind, M.pure,
        Cpu.busCycle, Cpu.busRead]
    · rcases Nat.lt_or_ge 0xFF (a + b + 1) with hc | hc
      · simp [add, sub, resolve_addr, imm, rd, getReg, setReg, getPC, setPC, getFlag, updCV,
          st0, Registers.check_flag, Registers.read, Registers.write, Registers.update_zn,
          Registers.update_cv, flagMask, bind_eq_mbind, M.bind, M.pure,
          Cpu.busCycle, Cpu.busRead, hc] <;> (first | decide | (split_ifs <;> decide))
      · have hc' : ¬ (0xFF < a + b + 1) := by omega
        simp [add, sub, resolve_addr, imm, rd, getReg, setReg, getPC, setPC, getFlag, updCV,
          st0, Registers.check_flag, Registers.read, Registers.write, Registers.update_zn,
          Registers.update_cv, flagMask, bind_eq_mbind, M.bind, M.pure,
          Cpu.busCycle, Cpu.busRead, hc'] <;> (first | decide | (split_ifs <;> decide))
    · by_cases hv : ((a ^^^ b) ^^^ 0xFF) &&& (a ^^^ (a + b + 1)) &&& 0x80 ≠ 0
      · simp [add, sub, resolve_addr, imm, rd, getReg, setReg, getPC, setPC, getFlag, updCV,
          st0, Registers.check_flag, Registers.read, Registers.write, Registers.update_zn,
          Registers.update_cv, flagMask, bind_eq_mbind, M.bind, M.pure,
          Cpu.busCycle, Cpu.busRead, hv] <;> (first | decide | (split_ifs <;> decide))
      · simp [add, sub, resolve_addr, imm, rd, getReg, setReg, getPC, setPC, getFlag, updCV,
          st0, Registers.check_flag, Registers.read, Registers.write, Registers.update_zn,
          Registers.update_cv, flagMask, bind_eq_mbind, M.bind, M.pure,
          Cpu.busCycle, Cpu.busRead, hv] <;> (first | decide | (split_ifs <;> decide))
    · simp [add, sub, resolve_addr, imm, rd, getReg, setReg, getPC, setPC, getFlag, updCV,
        st0, Registers.check_flag, Registers.read, Registers.write, Registers.update_zn,
        Registers.update_cv, flagMask, bind_eq_mbind, M.bind, M.pure,
        Cpu.busCycle, Cpu.busRead]

/-- Claim C3 witness: the spec's S3 corner — `A = 0x50`, `C = 0`,
`ADC #$50` yields `A = 0xA0` with `V = 1`, `C = 0`. -/
theorem C3_witness :
    (0x50 : Nat) < 256 ∧
    (add .Immediate (st0 0x50 false 0x50)).2.reg.a = 0xA0 ∧
    (add .Immediate (st0 0x50 false 0x50)).2.reg.check_flag .Overflow = true ∧
    (add .Immediate (st0 0x50 false 0x50)).2.reg.check_flag .Carry = false := by
  have h := C3_adc_sbc_law 0x50 0x50 false (by decide) (by decide)
  refine ⟨by decide, ?_, ?_, ?_⟩
  · rw [h.1]; decide
  · rw [h.2.2.1]; decide
  · rw [h.2.1]; decide

/-- Claim C4: writing `v` to P through the register API stores
`(v & 0xCF) | 0x20`; PLP (`stack(P, false)`) and RTI restore P from the
popped byte through the same mask; PHP (`stack(P, true)`) and BRK push
`P | 0x10`. -/
theorem C4_p_masking :
    (∀ (rg : Registers) (v : Nat), (rg.write .P v).p = (v &&& 0xCF) ||| 0x20) ∧
    (∀ s : Cpu, (stackOp .P false s).2.reg.p
      = (s.mem ((s.reg.sp + 1) % 256 + 0x100) &&& 0xCF) ||| 0x20) ∧
    (∀ s : Cpu, (rti s).2.reg.p
      = (s.mem ((s.reg.sp + 1) % 256 + 0x100) &&& 0xCF) ||| 0x20) ∧
    (∀ s : Cpu, (stackOp .P true s).2.mem (s.reg.sp + 0x100) = s.reg.p ||| 0x10) ∧
    (∀ s : Cpu, (brk s).2.mem (((s.reg.sp + 256 - 1) % 256 + 256 - 1) % 256 + 0x100)
      = s.reg.p ||| 0x10) := by
  refine ⟨fun rg v => rfl, fun s => ?_, fun s => ?_, fun s => ?_, fun s => ?_⟩
  · simp [stackOp, pop, tick, rd, getReg, setReg, Registers.write, Registers.read,
      bind_eq_mbind, M.bind, M.pure, Cpu.busCycle, Cpu.busRead]
  · simp [rti, stackOp, pop, pop16, tick, rd, getReg, setReg, setPC,
      Registers.write, Registers.read, bind_eq_mbind, M.bind, M.pure,
      Cpu.busCycle, Cpu.busRead]
  · simp [stackOp, push, tick, wr, getReg, setReg, Registers.write, Registers.read,
      bind_eq_mbind, M.bind, M.pure, Cpu.busCycle, Cpu.busWrite]
  · cases hn : s.nmi <;>
      simp [brk, push16, push, pop, tick, rd, wr, getReg, setReg, getPC, setPC,
        setFlag, getNmi, read16, Registers.write, Registers.read,
        Registers.update_flag, flagMask, bind_eq_mbind, M.bind, M.pure, M.fail,
        Cpu.busCycle, Cpu.busRead, Cpu.busWrite, hn]

/-- Claim C7: for a 16-bit indirect-JMP pointer with low byte `0xFF`
(high byte `x`), the target PC's low byte is read from `$xxFF`
(`x*256 + 0xFF`) and its high byte from `$xx00` (`x*256`, the start of
the same page, not `$(xx+1)00`), and the combined value is assigned to
PC. -/
theorem C7_jmp_indirect_wrap (s : Cpu) (x : Nat) (hx : x < 256)
    (hpc : s.reg.pc < 0xFFFF)
    (hlo : s.mem s.reg.pc = 0xFF)
    (hhi : s.mem (s.reg.pc + 1) = x) :
    (jump .Indirect s).1 = some () ∧
    (jump .Indirect s).2.reg.pc
      = s.mem (x * 256 + 0xFF) ||| (s.mem (x * 256) <<< 8) ∧
    (jump .Indirect s).2.trace
      = s.trace ++ [Ev.cycle, Ev.rd s.reg.pc 0xFF,
          Ev.cycle, Ev.rd (s.reg.pc + 1) x,
          Ev.cycle, Ev.rd (x * 256 + 0xFF) (s.mem (x * 256 + 0xFF)),
          Ev.cycle, Ev.rd (x * 256) (s.mem (x * 256))] := by
  have hptr := lor_shift8 x hx
  have hcond := land_ff x hx
  have hov : ¬ (0xFFFF ≤ s.reg.pc) := by omega
  refine ⟨?_, ?_, ?_⟩ <;>
    simp [jump, resolve_addr, ind, imm16, read16, getPC, setPC, rd,
      bind_eq_mbind, M.bind, M.pure, M.fail, Cpu.busCycle, Cpu.busRead,
      ite_apply, hov, hlo, hhi, hptr, hcond, Nat.add_sub_cancel,
      List.append_assoc]

/-- Claim C7 witness: `JMP ($02FF)` with `$02FF = 0x34`, `$0200 = 0x12`
sets PC to `0x1234`. -/
theorem C7_witness :
    (jump .Indirect stC7).1 = some () ∧ (jump .Indirect stC7).2.reg.pc = 0x1234 := by
  have h := C7_jmp_indirect_wrap stC7 2 (by decide) (by decide) (by decide) (by decide)
  refine ⟨h.1, ?_⟩
  rw [h.2.1]
  decide

/-- Claim C10: `read16 a` fetches the low byte at `a` and the high byte
at `a + 1` with no 16-bit wraparound; at `a = 0xFFFF` the `a + 1`
computation overflows `u16` and the step is not total (the panic is
reached from `execute` through an Absolute operand fetch with the
operand bytes at `0xFFFF`); for `a < 0xFFFF` it is total. -/
theorem C10_read16_overflow :
    (∀ (s : Cpu) (a : Nat), a < 0xFFFF →
      read16 a s = (some (s.mem a ||| (s.mem (a + 1) <<< 8)),
        { s with trace := s.trace ++ [Ev.cycle, Ev.rd a (s.mem a),
            Ev.cycle, Ev.rd (a + 1) (s.mem (a + 1))] })) ∧
    (∀ s : Cpu, (read16 0xFFFF s).1 = none) ∧
    (execute decodeC10 stC10).1 = none := by
  refine ⟨?_, ?_, rfl⟩
  · intro s a ha
    have hov : ¬ (0xFFFF ≤ a) := by omega
    simp [read16, rd, bind_eq_mbind, M.bind, M.pure, M.fail,
      Cpu.busCycle, Cpu.busRead, ite_apply, hov, List.append_assoc]
  · intro s
    simp [read16, rd, bind_eq_mbind, M.bind, M.pure, M.fail,
      Cpu.busCycle, Cpu.busRead, ite_apply]

/-- Claim C10 witness: `read16 0x1234` on the concrete state succeeds
with value 0. -/
theorem C10_witness : (read16 0x1234 stC10).1 = some 0 := by
  have h := C10_read16_overflow.1 stC10 0x1234 (by decide)
  rw [h]
  decide

/-! ### NROM mirroring (claim C8). -/

theorem new?_one_page {d : List Nat} {n : NROM} (hnew : NROM.new? d = some n)
    (h4 : d.getD 4 0 = 1) :
    n.prg_rom = (d.drop 16).take 16384 ∧ n.prg_num = 1 ∧ 16400 ≤ d.length := by
  unfold NROM.new? at hnew
  simp only [h4, one_mul] at hnew
  iterate 8 (all_goals (first | exact Option.noConfusion hnew | split at hnew | skip))
  all_goals (injection hnew with h'; subst h'; exact ⟨rfl, rfl, by omega⟩)

theorem cpuWrite_low_preserves {n n' : NROM} {a v : Nat} (ha : a < 0x8000)
    (h : n.cpuWrite a v = some n') :
    n'.prg_rom = n.prg_rom ∧ n'.prg_num = n.prg_num := by
  unfold NROM.cpuWrite at h
  split at h
  · split at h
    · injection h with h'; subst h'; exact ⟨rfl, rfl⟩
    · exact Option.noConfusion h
  · split at h
    · rename_i h1 h2
      omega
    · split at h
      · rename_i h1 h2 h3
        omega
      · injection h with h'; subst h'; exact ⟨rfl, rfl⟩

theorem applyWrites_preserves {ws : List (Nat × Nat)} :
    ∀ {n n' : NROM}, (∀ w ∈ ws, w.1 < 0x8000) → applyWrites n ws = some n' →
      n'.prg_rom = n.prg_rom ∧ n'.prg_num = n.prg_num := by
  induction ws with
  | nil =>
    intro n n' _ h
    injection h with h'
    subst h'
    exact ⟨rfl, rfl⟩
  | cons w ws ih =>
    intro n n' hall h
    unfold applyWrites at h
    rcases hw : n.cpuWrite w.1 w.2 with _ | n1
    · rw [hw] at h; exact Option.noConfusion h
    · rw [hw] at h
      have h1 := cpuWrite_low_preserves (hall w (by simp)) hw
      have h2 := ih (fun x hx => hall x (by simp [hx])) h
      exact ⟨h2.1.trans h1.1, h2.2.trans h1.2⟩

theorem img1_len : img1.length = 16400 := by simp [img1]

theorem img2_len : img2.length = 32784 := by simp [img2]

theorem img1_getD4 : img1.getD 4 0 = 1 := by
  simp [img1, List.getD_eq_getElem?_getD, List.getElem?_map, List.getElem?_range]

theorem img1_getD5 : img1.getD 5 0 = 0 := by
  simp [img1, List.getD_eq_getElem?_getD, List.getElem?_map, List.getElem?_range]

theorem img1_getD8 : img1.getD 8 0 = 0 := by
  simp [img1, List.getD_eq_getElem?_getD, List.getElem?_map, List.getElem?_range]

theorem img2_getD4 : img2.getD 4 0 = 2 := by
  simp [img2, List.getD_eq_getElem?_getD, List.getElem?_map, List.getElem?_range]

theorem img2_getD5 : img2.getD 5 0 = 0 := by
  simp [img2, List.getD_eq_getElem?_getD, List.getElem?_map, List.getElem?_range]

theorem img2_getD8 : img2.getD 8 0 = 0 := by
  simp [img2, List.getD_eq_getElem?_getD, List.getElem?_map, List.getElem?_range]

theorem new1_eq : NROM.new? img1
    = some ⟨(img1.drop 16).take 16384, (img1.drop (16 + 16384)).take 0,
        List.replicate 8192 0, 1⟩ := by
  unfold NROM.new?
  rw [img1_len, img1_getD4, img1_getD5, img1_getD8]
  norm_num

theorem new2_eq : NROM.new? img2
    = some ⟨(img2.drop 16).take 32768, (img2.drop (16 + 32768)).take 0,
        List.replicate 8192 0, 2⟩ := by
  unfold NROM.new?
  rw [img2_len, img2_getD4, img2_getD5, img2_getD8]
  norm_num

theorem nrom1_def : nrom1 = ⟨(img1.drop 16).take 16384, (img1.drop (16 + 16384)).take 0,
    List.replicate 8192 0, 1⟩ := by
  rw [nrom1, new1_eq]
  rfl

theorem nrom2_def : nrom2 = ⟨(img2.drop 16).take 32768, (img2.drop (16 + 32768)).take 0,
    List.replicate 8192 0, 2⟩ := by
  rw [nrom2, new2_eq]
  rfl

theorem nrom2_reads : nrom2.cpuRead 0xC000 = some 0 ∧ nrom2.cpuRead 0x8000 = some 7 := by
  rw [nrom2_def]
  constructor <;>
    simp [NROM.cpuRead, List.getElem?_take, List.getElem?_drop, img2,
      List.getElem?_map, List.getElem?_range]

/-- Claim C8: for any iNES image with PRG page count 1 and any sequence
of CPU writes outside the `0x8000–0xFFFF` window, `cpu_read(0xC000 + k)`
mirrors `cpu_read(0x8000 + k)` for every `k < 0x4000` (and the reads are
in bounds); for the 2-PRG image `img2` the two windows differ. -/
theorem C8_nrom_mirroring :
    (∀ (d : List Nat) (n0 n1 : NROM) (ws : List (Nat × Nat)) (k : Nat),
      NROM.new? d = some n0 → d.getD 4 0 = 1 →
      (∀ w ∈ ws, w.1 < 0x8000) → applyWrites n0 ws = some n1 →
      k < 0x4000 →
      n1.cpuRead (0xC000 + k) = n1.cpuRead (0x8000 + k) ∧
      (n1.cpuRead (0x8000 + k)).isSome = true) ∧
    (NROM.new? img2 = some nrom2 ∧ nrom2.cpuRead 0xC000 ≠ nrom2.cpuRead 0x8000) := by
  constructor
  · intro d n0 n1 ws k hnew h4 hws happ hk
    obtain ⟨hrom0, hnum0, hlen⟩ := new?_one_page hnew h4
    obtain ⟨hrom1, hnum1⟩ := applyWrites_preserves hws happ
    have hrom : n1.prg_rom = (d.drop 16).take 16384 := hrom1.trans hrom0
    have hnum : n1.prg_num = 1 := hnum1.trans hnum0
    have e1 : ¬(0x6000 ≤ 0xC000 + k ∧ 0xC000 + k ≤ 0x7FFF) := by omega
    have e2 : ¬(0x8000 ≤ 0xC000 + k ∧ 0xC000 + k ≤ 0xBFFF) := by omega
    have e3 : 0xC000 ≤ 0xC000 + k ∧ 0xC000 + k ≤ 0xFFFF := by omega
    have e4 : (0xC000 + k) % 0xC000 = k := by omega
    have f1 : ¬(0x6000 ≤ 0x8000 + k ∧ 0x8000 + k ≤ 0x7FFF) := by omega
    have f2 : 0x8000 ≤ 0x8000 + k ∧ 0x8000 + k ≤ 0xBFFF := by omega
    have f3 : (0x8000 + k) % 0x8000 = k := by omega
    have hlrom : n1.prg_rom.length = 16384 := by
      rw [hrom]
      simp [List.length_take, List.length_drop]
      omega
    constructor
    · simp [NROM.cpuRead, e1, e2, e3, e4, f1, f2, f3, hnum]
    · have hklen : k < n1.prg_rom.length := by omega
      simp [NROM.cpuRead, f1, f2, f3, List.getElem?_eq_getElem hklen]
  · refine ⟨by rw [new2_eq, nrom2_def], ?_⟩
    rw [nrom2_reads.1, nrom2_reads.2]
    decide

/-- Claim C8 witness: the concrete 1-PRG image `img1` (no writes)
mirrors at `k = 5`. -/
theorem C8_witness :
    NROM.new? img1 = some nrom1 ∧
    nrom1.cpuRead (0xC000 + 5) = nrom1.cpuRead (0x8000 + 5) ∧
    (nrom1.cpuRead (0x8000 + 5)).isSome = true := by
  have h1 : NROM.new? img1 = some nrom1 := by rw [new1_eq, nrom1_def]
  have h := C8_nrom_mirroring.1 img1 nrom1 nrom1 [] 5 h1 img1_getD4
    (by simp) rfl (by decide)
  exact ⟨h1, h.1, h.2⟩

end Nesmesis
